import Mathlib

/-!
# Guest authentication core (`lib/auth/authPosix.c`)

A shallow embedding of `AuthLoadPAM`, `PAM_conv` and `Auth_AuthenticateUser`.

* C strings are lists of bytes (the terminating NUL is not part of the list); a
  `char *` that may be `NULL` is an `Option CStr`.
* Pointers returned by the dynamic loader are natural numbers; `NULL` is `none`.
* Everything outside the file (the dynamic loader, the PAM library, the identity
  database, `crypt`, `CodeSet_Validate`, the allocator) is an oracle bundled in
  `World`; every call to the outside is recorded, in program order, in a trace of
  `Call` events.
* The preprocessor configuration (`USE_PAM`, `VMX86_TOOLS`, the platform that
  selects `CURRENT_PAM_LIBRARY`) is a `Config` value.
-/

namespace AuthPosix

/-- Bytes of a NUL-terminated C string, terminator excluded. -/
abbrev CStr := List Nat

/-- C string literal. -/
def cstr (s : String) : CStr := s.data.map Char.toNat

/-! ## Constants of `<security/pam_appl.h>`

The header is the system's; the values are those of Linux-PAM. The code only
compares them with each other. -/

def PAM_SUCCESS : Int := 0
def PAM_CONV_ERR : Int := 19
def PAM_PROMPT_ECHO_OFF : Int := 1
def PAM_PROMPT_ECHO_ON : Int := 2
def PAM_ERROR_MSG : Int := 3
def PAM_TEXT_INFO : Int := 4
def PAM_ESTABLISH_CRED : Int := 2

/-! ## Build configuration -/

inductive Platform
  | sun
  | freebsd
  | apple
  | other
  deriving DecidableEq, Repr

structure Config where
  USE_PAM : Bool
  VMX86_TOOLS : Bool
  platform : Platform
  deriving DecidableEq, Repr

/-- The macro `CURRENT_PAM_LIBRARY` (lines 57-65). -/
def CURRENT_PAM_LIBRARY (cfg : Config) : CStr :=
  match cfg.platform with
  | .sun => cstr "libpam.so.1"
  | .freebsd => cstr "libpam.so"
  | .apple => cstr "libpam.dylib"
  | .other => cstr "libpam.so.0"

/-! ## Data -/

/-- The fields of `struct passwd`. -/
structure passwd where
  pw_name : CStr
  pw_passwd : CStr
  pw_uid : Nat
  pw_gid : Nat
  pw_dir : CStr
  pw_shell : CStr
  deriving DecidableEq, Repr

/-- One `struct pam_response`. -/
structure pam_response where
  resp : Option CStr
  resp_retcode : Int
  deriving DecidableEq, Repr

/-- The six static function pointers `dlpam_*` (lines 67-72). -/
inductive Slot
  | dlpam_start
  | dlpam_end
  | dlpam_authenticate
  | dlpam_setcred
  | dlpam_acct_mgmt
  | dlpam_strerror
  deriving DecidableEq, Repr

/-- The file-scope statics of `authPosix.c`. -/
structure AuthState where
  dlpam_start : Option Nat
  dlpam_end : Option Nat
  dlpam_authenticate : Option Nat
  dlpam_setcred : Option Nat
  dlpam_acct_mgmt : Option Nat
  dlpam_strerror : Option Nat
  authPamLibraryHandle : Option Nat
  PAM_username : Option CStr
  PAM_password : Option CStr
  deriving DecidableEq, Repr

/-- State of a freshly started process: every static is zero. -/
def AuthState.init : AuthState :=
  ⟨none, none, none, none, none, none, none, none, none⟩

/-- Read of `*procaddr`. -/
def AuthState.getSlot (s : AuthState) : Slot → Option Nat
  | .dlpam_start => s.dlpam_start
  | .dlpam_end => s.dlpam_end
  | .dlpam_authenticate => s.dlpam_authenticate
  | .dlpam_setcred => s.dlpam_setcred
  | .dlpam_acct_mgmt => s.dlpam_acct_mgmt
  | .dlpam_strerror => s.dlpam_strerror

/-- The store `*procaddr = symbol`. -/
def AuthState.setSlot (s : AuthState) (p : Slot) (symbol : Nat) : AuthState :=
  match p with
  | .dlpam_start => { s with dlpam_start := some symbol }
  | .dlpam_end => { s with dlpam_end := some symbol }
  | .dlpam_authenticate => { s with dlpam_authenticate := some symbol }
  | .dlpam_setcred => { s with dlpam_setcred := some symbol }
  | .dlpam_acct_mgmt => { s with dlpam_acct_mgmt := some symbol }
  | .dlpam_strerror => { s with dlpam_strerror := some symbol }

/-- The stores `PAM_username = user; PAM_password = pass;` (lines 300-301). -/
def AuthState.publish (s : AuthState) (user pass : CStr) : AuthState :=
  { s with PAM_username := some user, PAM_password := some pass }

/-- The table `authPAMImported` (lines 79-91): `(procaddr, procname)` pairs. -/
def authPAMImported : List (Slot × CStr) :=
  [ (.dlpam_start, cstr "pam_start"),
    (.dlpam_end, cstr "pam_end"),
    (.dlpam_authenticate, cstr "pam_authenticate"),
    (.dlpam_setcred, cstr "pam_setcred"),
    (.dlpam_acct_mgmt, cstr "pam_acct_mgmt"),
    (.dlpam_strerror, cstr "pam_strerror") ]

/-! ## The outside world -/

/-- The messages passed to `Log` / `Log_Error`. -/
inductive LogMsg
  | userNotUtf8
  | passNotUtf8
  | systemPamUnusable
  | bundledNotFound
  | neitherUsable (liblocation : CStr)
  | missingFunction
  | pamUp
  | failedToStartPam (code : Int)
  | pamFailure (code : Int)
  deriving DecidableEq, Repr

/-- Calls that leave the file, in the order they are made. -/
inductive Call
  | CodeSet_Validate (buf : CStr)
  | Log (m : LogMsg)
  | Posix_Dlopen (path : CStr)
  | dlerror
  | LocalConfig_GetPathName
  | dlsym (lib : Nat) (name : CStr)
  | dlclose (lib : Nat)
  | pam_start (fn : Nat) (service : CStr) (user : Option CStr)
  | pam_authenticate (fn : Nat) (pamh : Nat) (flags : Int)
  | pam_acct_mgmt (fn : Nat) (pamh : Nat) (flags : Int)
  | pam_setcred (fn : Nat) (pamh : Nat) (flags : Int)
  | pam_strerror (fn : Nat) (pamh : Nat) (code : Int)
  | pam_end (fn : Nat) (pamh : Nat) (status : Int)
  | setpwent
  | Posix_Getpwnam (name : CStr)
  | endpwent
  | crypt (key : CStr) (salt : CStr)
  deriving DecidableEq, Repr

/-- The dynamic loader and the local configuration, as seen by one call of
`AuthLoadPAM`. -/
structure Loader where
  Posix_Dlopen : CStr → Option Nat
  dlsym : Nat → CStr → Option Nat
  LocalConfig_GetPathName : Option CStr

/-- The allocator: whether `calloc` of the reply array succeeds, and whether the
`strdup` made for prompt number `count` succeeds. -/
structure Alloc where
  calloc : Nat → Bool
  strdup : Nat → Bool

/-- What a PAM module sees of the conversation callback: the prompt styles go in,
the return code and (when `*resp` was assigned) the reply array come out. -/
abbrev Conv := List Int → Int × Option (List pam_response)

/-- Behaviour of the code behind the function pointers of the PAM library. Each
entry takes the pointer that is called. -/
structure PamLib where
  pam_start : Nat → CStr → Option CStr → Conv → Int × Nat
  pam_authenticate : Nat → Nat → Int → Conv → Int
  pam_acct_mgmt : Nat → Nat → Int → Conv → Int
  pam_setcred : Nat → Nat → Int → Conv → Int

structure World where
  CodeSet_Validate : CStr → Nat → CStr → Bool
  loader : Loader
  alloc : Alloc
  pam : PamLib
  Posix_Getpwnam : CStr → Option passwd
  crypt : CStr → CStr → Option CStr

/-- How a call of `Auth_AuthenticateUser` ends: it returns an `AuthToken`
(`struct passwd *`, possibly `NULL`), or it dereferences a null pointer. -/
inductive Outcome
  | returned (token : Option passwd)
  | crashed
  deriving DecidableEq, Repr

/-! ## `AuthLoadPAM` (lines 115-177) -/

/-- Lines 124-159: find the library. Returns `pam_library` and the calls made. -/
def AuthLoadPAM_open (cfg : Config) (ld : Loader) : Option Nat × List Call :=
  match ld.Posix_Dlopen (CURRENT_PAM_LIBRARY cfg) with
  | some pam_library => (some pam_library, [.Posix_Dlopen (CURRENT_PAM_LIBRARY cfg)])
  | none =>
    if cfg.VMX86_TOOLS then
      (none, [.Posix_Dlopen (CURRENT_PAM_LIBRARY cfg), .dlerror, .Log .systemPamUnusable])
    else
      match ld.LocalConfig_GetPathName with
      | none =>
        (none, [.Posix_Dlopen (CURRENT_PAM_LIBRARY cfg), .LocalConfig_GetPathName,
                .Log .bundledNotFound])
      | some libdir =>
        let liblocation := libdir ++ cstr "/lib/" ++ CURRENT_PAM_LIBRARY cfg ++ cstr "/"
                             ++ CURRENT_PAM_LIBRARY cfg
        match ld.Posix_Dlopen liblocation with
        | none =>
          (none, [.Posix_Dlopen (CURRENT_PAM_LIBRARY cfg), .LocalConfig_GetPathName,
                  .Posix_Dlopen liblocation, .dlerror, .Log (.neitherUsable liblocation)])
        | some pam_library =>
          (some pam_library, [.Posix_Dlopen (CURRENT_PAM_LIBRARY cfg), .LocalConfig_GetPathName,
                              .Posix_Dlopen liblocation])

/-- Lines 160-171: the loop over the remaining entries of `authPAMImported`.
Returns `false` when it left through the `return FALSE` of line 167. -/
def AuthLoadPAM_loop (ld : Loader) (pam_library : Nat) :
    List (Slot × CStr) → AuthState → Bool × AuthState × List Call
  | [], s => (true, s, [])
  | (procaddr, procname) :: rest, s =>
    match ld.dlsym pam_library procname with
    | none =>
      (false, s, [.dlsym pam_library procname, .dlerror, .Log .missingFunction,
                  .dlclose pam_library])
    | some symbol =>
      let r := AuthLoadPAM_loop ld pam_library rest (s.setSlot procaddr symbol)
      (r.1, r.2.1, .dlsym pam_library procname :: r.2.2)

def AuthLoadPAM (cfg : Config) (ld : Loader) (s : AuthState) : Bool × AuthState × List Call :=
  if s.authPamLibraryHandle.isSome then (true, s, [])
  else
    match AuthLoadPAM_open cfg ld with
    | (none, tr) => (false, s, tr)
    | (some pam_library, tr) =>
      match AuthLoadPAM_loop ld pam_library authPAMImported s with
      | (false, s1, tr1) => (false, s1, tr ++ tr1)
      | (true, s1, tr1) =>
        (true, { s1 with authPamLibraryHandle := some pam_library }, tr ++ tr1 ++ [.Log .pamUp])

/-- The process calls `AuthLoadPAM` once per element of `lds`; the loader may
behave differently at each call. Returns the results and traces of the calls, in
order, and the final state. -/
def AuthLoadPAM_calls (cfg : Config) : List Loader → AuthState → List (Bool × List Call) × AuthState
  | [], s => ([], s)
  | ld :: rest, s =>
    let r := AuthLoadPAM cfg ld s
    let rs := AuthLoadPAM_calls cfg rest r.2.1
    ((r.1, r.2.2) :: rs.1, rs.2)

/-! ## `PAM_conv` (lines 180-236) -/

/-- The expression `p ? strdup(p) : NULL` evaluated for prompt number `count`. -/
def strdupOrNull (al : Alloc) (count : Nat) (p : Option CStr) : Option CStr :=
  match p with
  | none => none
  | some str => if al.strdup count then some str else none

/-- Lines 202-231: the loop from index `count` over the remaining messages.
`none` is the exit through `return PAM_CONV_ERR` (line 229), where everything
produced so far has been freed. -/
def PAM_conv_loop (al : Alloc) (s : AuthState) : Nat → List Int → Option (List pam_response)
  | _, [] => some []
  | count, msg_style :: rest =>
    if msg_style = PAM_PROMPT_ECHO_ON then
      (PAM_conv_loop al s (count + 1) rest).map
        (fun reply => ⟨strdupOrNull al count s.PAM_username, PAM_SUCCESS⟩ :: reply)
    else if msg_style = PAM_PROMPT_ECHO_OFF then
      (PAM_conv_loop al s (count + 1) rest).map
        (fun reply => ⟨strdupOrNull al count s.PAM_password, PAM_SUCCESS⟩ :: reply)
    else if msg_style = PAM_TEXT_INFO then
      (PAM_conv_loop al s (count + 1) rest).map
        (fun reply => ⟨none, PAM_SUCCESS⟩ :: reply)
    else if msg_style = PAM_ERROR_MSG then
      none
    else
      none

/-- The callback: `msg` holds the `msg_style` of each of the `num_msg` messages.
The second component is what `*resp` was set to, `none` when it was not assigned. -/
def PAM_conv (al : Alloc) (s : AuthState) (msg : List Int) : Int × Option (List pam_response) :=
  if !al.calloc msg.length then (PAM_CONV_ERR, none)
  else
    match PAM_conv_loop al s 0 msg with
    | none => (PAM_CONV_ERR, none)
    | some reply => (PAM_SUCCESS, some reply)

/-! ## `Auth_AuthenticateUser` (lines 263-357) -/

/-- The macro `PAM_BAIL` when `pam_error != PAM_SUCCESS` (lines 293-299). -/
def PAM_BAIL (s : AuthState) (pamh : Nat) (pam_error : Int) : Outcome × List Call :=
  match s.dlpam_strerror with
  | none => (.crashed, [])
  | some fstrerror =>
    match s.dlpam_end with
    | none => (.crashed, [.pam_strerror fstrerror pamh pam_error, .Log (.pamFailure pam_error)])
    | some fend =>
      (.returned none, [.pam_strerror fstrerror pamh pam_error, .Log (.pamFailure pam_error),
                        .pam_end fend pamh pam_error])

/-- The service name passed to `pam_start` (lines 303-309). -/
def serviceName (cfg : Config) : CStr :=
  if cfg.VMX86_TOOLS then cstr "vmtoolsd" else cstr "vmware-authd"

/-- Lines 315-326, after `pam_start` succeeded with session `pamh`. -/
def Auth_checks (w : World) (s : AuthState) (pamh : Nat) (user : CStr) : Outcome × List Call :=
  let conv : Conv := PAM_conv w.alloc s
  match s.dlpam_authenticate with
  | none => (.crashed, [])
  | some fauth =>
    let e1 := w.pam.pam_authenticate fauth pamh 0 conv
    let t1 : List Call := [.pam_authenticate fauth pamh 0]
    if e1 ≠ PAM_SUCCESS then ((PAM_BAIL s pamh e1).1, t1 ++ (PAM_BAIL s pamh e1).2)
    else
      match s.dlpam_acct_mgmt with
      | none => (.crashed, t1)
      | some facct =>
        let e2 := w.pam.pam_acct_mgmt facct pamh 0 conv
        let t2 : List Call := t1 ++ [.pam_acct_mgmt facct pamh 0]
        if e2 ≠ PAM_SUCCESS then ((PAM_BAIL s pamh e2).1, t2 ++ (PAM_BAIL s pamh e2).2)
        else
          match s.dlpam_setcred with
          | none => (.crashed, t2)
          | some fcred =>
            let e3 := w.pam.pam_setcred fcred pamh PAM_ESTABLISH_CRED conv
            let t3 : List Call := t2 ++ [.pam_setcred fcred pamh PAM_ESTABLISH_CRED]
            if e3 ≠ PAM_SUCCESS then ((PAM_BAIL s pamh e3).1, t3 ++ (PAM_BAIL s pamh e3).2)
            else
              match s.dlpam_end with
              | none => (.crashed, t3)
              | some fend =>
                (.returned (w.Posix_Getpwnam user),
                 t3 ++ [.pam_end fend pamh PAM_SUCCESS, .setpwent, .Posix_Getpwnam user,
                        .endpwent])

/-- The body under `#ifdef USE_PAM` (lines 284-326). -/
def Auth_AuthenticateUser_pam (cfg : Config) (w : World) (s : AuthState) (user pass : CStr) :
    Outcome × AuthState × List Call :=
  match AuthLoadPAM cfg w.loader s with
  | (false, s1, tr) => (.returned none, s1, tr)
  | (true, s1, tr) =>
    let s2 : AuthState := s1.publish user pass
    match s2.dlpam_start with
    | none => (.crashed, s2, tr)
    | some fstart =>
      let r := w.pam.pam_start fstart (serviceName cfg) s2.PAM_username (PAM_conv w.alloc s2)
      let tr1 : List Call := tr ++ [.pam_start fstart (serviceName cfg) s2.PAM_username]
      if r.1 ≠ PAM_SUCCESS then (.returned none, s2, tr1 ++ [.Log (.failedToStartPam r.1)])
      else ((Auth_checks w s2 r.2 user).1, s2, tr1 ++ (Auth_checks w s2 r.2 user).2)

/-- The body under `#else` (lines 334-353) followed by `return pwd`. -/
def Auth_AuthenticateUser_nopam (w : World) (user pass : CStr) : Outcome × List Call :=
  let tr : List Call := [.setpwent, .Posix_Getpwnam user, .endpwent]
  match w.Posix_Getpwnam user with
  | none => (.returned none, tr)
  | some pwd =>
    if pwd.pw_passwd ≠ [] then
      match w.crypt pass pwd.pw_passwd with
      | none => (.crashed, tr ++ [.crypt pass pwd.pw_passwd])
      | some namep =>
        if namep ≠ pwd.pw_passwd then (.returned none, tr ++ [.crypt pass pwd.pw_passwd])
        else
          (.returned (some pwd),
           tr ++ [.crypt pass pwd.pw_passwd, .crypt (cstr "glurp") pwd.pw_passwd])
    else (.returned (some pwd), tr)

def Auth_AuthenticateUser (cfg : Config) (w : World) (s : AuthState) (user pass : CStr) :
    Outcome × AuthState × List Call :=
  if !w.CodeSet_Validate user user.length (cstr "UTF-8") then
    (.returned none, s, [.CodeSet_Validate user, .Log .userNotUtf8])
  else if !w.CodeSet_Validate pass pass.length (cstr "UTF-8") then
    (.returned none, s, [.CodeSet_Validate user, .CodeSet_Validate pass, .Log .passNotUtf8])
  else if cfg.USE_PAM then
    let r := Auth_AuthenticateUser_pam cfg w s user pass
    (r.1, r.2.1, [.CodeSet_Validate user, .CodeSet_Validate pass] ++ r.2.2)
  else
    let r := Auth_AuthenticateUser_nopam w user pass
    (r.1, s, [.CodeSet_Validate user, .CodeSet_Validate pass] ++ r.2)

/-! ## Classification of calls -/

/-- Calls into the loader on behalf of `AuthLoadPAM`: the bind/resolve work. -/
def Call.isBind : Call → Bool
  | .Posix_Dlopen _ => true
  | .dlsym _ _ => true
  | _ => false

/-- Calls made by `AuthLoadPAM` or through one of the `dlpam_*` pointers. -/
def Call.isModule : Call → Bool
  | .Posix_Dlopen _ => true
  | .dlerror => true
  | .LocalConfig_GetPathName => true
  | .dlsym _ _ => true
  | .dlclose _ => true
  | .pam_start _ _ _ => true
  | .pam_authenticate _ _ _ => true
  | .pam_acct_mgmt _ _ _ => true
  | .pam_setcred _ _ _ => true
  | .pam_strerror _ _ _ => true
  | .pam_end _ _ _ => true
  | _ => false

/-- Calls to the identity database. -/
def Call.isIdentity : Call → Bool
  | .setpwent => true
  | .Posix_Getpwnam _ => true
  | .endpwent => true
  | _ => false

/-- Calls of the hash primitive. -/
def Call.isCrypt : Call → Bool
  | .crypt _ _ => true
  | _ => false

/-- The session protocol: the three checks and the teardown. -/
def Call.isSession : Call → Bool
  | .pam_authenticate _ _ _ => true
  | .pam_acct_mgmt _ _ _ => true
  | .pam_setcred _ _ _ => true
  | .pam_end _ _ _ => true
  | _ => false

/-! ## Sample worlds, used to run the definitions on concrete inputs -/

/-- Number of continuation bytes (`0x80..0xBF`) at the head of a buffer required
by a lead byte, with the permitted range of the first of them; `none` for a byte
that cannot start a sequence. -/
def utf8Lead (b : Nat) : Option (Nat × Nat × Nat) :=
  if b < 0x80 then some (0, 0x80, 0xBF)
  else if 0xC2 ≤ b ∧ b ≤ 0xDF then some (1, 0x80, 0xBF)
  else if b = 0xE0 then some (2, 0xA0, 0xBF)
  else if b = 0xED then some (2, 0x80, 0x9F)
  else if 0xE1 ≤ b ∧ b ≤ 0xEF then some (2, 0x80, 0xBF)
  else if b = 0xF0 then some (3, 0x90, 0xBF)
  else if b = 0xF4 then some (3, 0x80, 0x8F)
  else if 0xF1 ≤ b ∧ b ≤ 0xF3 then some (3, 0x80, 0xBF)
  else none

/-- A UTF-8 well-formedness test; `pending` continuation bytes are still owed,
the next one within `lo..hi`. -/
def utf8Scan : Nat → Nat → Nat → List Nat → Bool
  | pending, _, _, [] => pending == 0
  | 0, _, _, b :: rest =>
    match utf8Lead b with
    | none => false
    | some (n, lo, hi) => utf8Scan n lo hi rest
  | pending + 1, lo, hi, b :: rest =>
    if lo ≤ b ∧ b ≤ hi then utf8Scan pending 0x80 0xBF rest else false

/-- A toy salted hash: the two salt bytes followed by the shifted key; like the
C library it gives `NULL` for a salt shorter than two bytes. -/
def sampleCrypt (key salt : CStr) : Option CStr :=
  if salt.length < 2 then none
  else some (salt.take 2 ++ key.map (fun b => (b + 1) % 128))

def alice : passwd :=
  ⟨cstr "alice", cstr "abqbtt", 1000, 1000, cstr "/home/alice", cstr "/bin/sh"⟩

def guest : passwd :=
  ⟨cstr "guest", [], 1001, 1001, cstr "/home/guest", cstr "/bin/sh"⟩

def sampleGetpwnam (name : CStr) : Option passwd :=
  if name = cstr "alice" then some alice
  else if name = cstr "guest" then some guest
  else none

/-- A loader that knows one library, at address 7, with symbol number `i` of
`names` at address `100 + i`. -/
def sampleLoader (names : List CStr) : Loader where
  Posix_Dlopen := fun path => if path = cstr "libpam.so.0" then some 7 else none
  dlsym := fun lib name =>
    if lib = 7 ∧ name ∈ names then some (100 + names.indexOf name) else none
  LocalConfig_GetPathName := none

/-- A loader that finds nothing. -/
def emptyLoader : Loader where
  Posix_Dlopen := fun _ => none
  dlsym := fun _ _ => none
  LocalConfig_GetPathName := none

/-- A PAM library whose three checks return the given codes, and whose
`pam_start` returns `startCode` and session handle 55. -/
def samplePam (startCode authCode acctCode credCode : Int) : PamLib where
  pam_start := fun _ _ _ _ => (startCode, 55)
  pam_authenticate := fun _ _ _ _ => authCode
  pam_acct_mgmt := fun _ _ _ _ => acctCode
  pam_setcred := fun _ _ _ _ => credCode

/-- An allocator that never fails. -/
def goodAlloc : Alloc where
  calloc := fun _ => true
  strdup := fun _ => true

/-- An allocator without memory left. -/
def noAlloc : Alloc where
  calloc := fun _ => false
  strdup := fun _ => false

def sampleWorld (ld : Loader) (pam : PamLib) : World where
  CodeSet_Validate := fun buf size _ => utf8Scan 0 0x80 0xBF (buf.take size)
  loader := ld
  alloc := goodAlloc
  pam := pam
  Posix_Getpwnam := sampleGetpwnam
  crypt := sampleCrypt

def fullNames : List CStr := authPAMImported.map Prod.snd

def cfgNoPam : Config := ⟨false, true, .other⟩
def cfgPam : Config := ⟨true, true, .other⟩

/-! ## Predicates used in the statements -/

/-- All six `dlpam_*` pointers are non-null. -/
def AuthState.bound (s : AuthState) : Bool :=
  s.dlpam_start.isSome && s.dlpam_end.isSome && s.dlpam_authenticate.isSome &&
  s.dlpam_setcred.isSome && s.dlpam_acct_mgmt.isSome && s.dlpam_strerror.isSome

/-- The invariant of the statics: a non-null `authPamLibraryHandle` comes with a
fully populated table. -/
def AuthState.WF (s : AuthState) : Bool :=
  !s.authPamLibraryHandle.isSome || s.bound

/-- The reply the loop of `PAM_conv` builds for message number `count` when its
style is one of the three it answers. -/
def expectedReply (al : Alloc) (s : AuthState) (count : Nat) (msg_style : Int) : pam_response :=
  if msg_style = PAM_PROMPT_ECHO_ON then ⟨strdupOrNull al count s.PAM_username, PAM_SUCCESS⟩
  else if msg_style = PAM_PROMPT_ECHO_OFF then ⟨strdupOrNull al count s.PAM_password, PAM_SUCCESS⟩
  else ⟨none, PAM_SUCCESS⟩

/-- An allocator that can get the reply array but no copy of a string. -/
def arrayOnlyAlloc : Alloc where
  calloc := fun _ => true
  strdup := fun _ => false

/-! ## Two attempts sharing the statics -/

/-- The two attempts. -/
inductive Who
  | A
  | B
  deriving DecidableEq, Repr

/-- The steps of an attempt that touch `PAM_username` / `PAM_password`: the
attempt stores its credentials (lines 300-301), and the module, working for that
attempt, calls `PAM_conv` with a list of prompts. -/
inductive Step
  | publish (who : Who)
  | prompt (who : Who) (msg : List Int)
  deriving DecidableEq, Repr

/-- The steps of one attempt in program order. -/
def attemptSteps (who : Who) (prompts : List (List Int)) : List Step :=
  .publish who :: prompts.map (.prompt who)

/-- What `PAM_conv` delivered for a prompt issued for attempt `who`. -/
structure Answer where
  who : Who
  msg : List Int
  result : Int × Option (List pam_response)
  deriving DecidableEq, Repr

/-- The statics after a sequence of steps. -/
def scheduleState (creds : Who → CStr × CStr) : List Step → AuthState → AuthState
  | [], s => s
  | .publish who :: rest, s => scheduleState creds rest (s.publish (creds who).1 (creds who).2)
  | .prompt _ _ :: rest, s => scheduleState creds rest s

/-- Run a sequence of steps on the shared statics, collecting the answers. -/
def runSchedule (al : Alloc) (creds : Who → CStr × CStr) : List Step → AuthState → List Answer
  | [], _ => []
  | .publish who :: rest, s => runSchedule al creds rest (s.publish (creds who).1 (creds who).2)
  | .prompt who msg :: rest, s => ⟨who, msg, PAM_conv al s msg⟩ :: runSchedule al creds rest s

/-- The third list is an interleaving of the first two. -/
inductive Interleave : List Step → List Step → List Step → Prop
  | nil : Interleave [] [] []
  | left (x : Step) {xs ys zs : List Step} : Interleave xs ys zs → Interleave (x :: xs) ys (x :: zs)
  | right (y : Step) {xs ys zs : List Step} : Interleave xs ys zs → Interleave xs (y :: ys) (y :: zs)

/-- The answer is the one `PAM_conv` gives from the credentials of the attempt
the prompt was issued for. -/
def Answer.own (al : Alloc) (creds : Who → CStr × CStr) (a : Answer) : Prop :=
  a.result = PAM_conv al (AuthState.init.publish (creds a.who).1 (creds a.who).2) a.msg

def sampleCreds : Who → CStr × CStr
  | .A => (cstr "alice", cstr "pa")
  | .B => (cstr "bob", cstr "pb")

/-- Both attempts publish, then both are prompted for name and password. -/
def crossSchedule : List Step :=
  [.publish .A, .publish .B, .prompt .A [PAM_PROMPT_ECHO_ON, PAM_PROMPT_ECHO_OFF],
   .prompt .B [PAM_PROMPT_ECHO_ON, PAM_PROMPT_ECHO_OFF]]

/-- The `key` arguments of the `crypt` calls of a trace, in call order. -/
def cryptKeys : List Call → List CStr
  | [] => []
  | .crypt key _ :: rest => key :: cryptKeys rest
  | _ :: rest => cryptKeys rest

/-! ## Theorems -/

section Orchestrator

variable (cfg : Config) (w : World) (s : AuthState) (user pass : CStr)

/-- C1: when the user name or the password fails `CodeSet_Validate`, the function
returns `NULL`, leaves the statics untouched, and the only calls it makes are the
validation calls and one `Log`: its trace holds no module call, no
identity-database call and no `crypt` call; whether or not `USE_PAM` is set. -/
theorem auth_invalid_encoding
    (h : w.CodeSet_Validate user user.length (cstr "UTF-8") = false ∨
         w.CodeSet_Validate pass pass.length (cstr "UTF-8") = false) :
    (Auth_AuthenticateUser cfg w s user pass).1 = .returned none ∧
    (Auth_AuthenticateUser cfg w s user pass).2.1 = s ∧
    ((Auth_AuthenticateUser cfg w s user pass).2.2 =
        [.CodeSet_Validate user, .Log .userNotUtf8] ∨
      (Auth_AuthenticateUser cfg w s user pass).2.2 =
        [.CodeSet_Validate user, .CodeSet_Validate pass, .Log .passNotUtf8]) ∧
    ∀ c ∈ (Auth_AuthenticateUser cfg w s user pass).2.2,
      c.isModule = false ∧ c.isIdentity = false ∧ c.isCrypt = false := by
  unfold Auth_AuthenticateUser
  by_cases hu : w.CodeSet_Validate user user.length (cstr "UTF-8") = true
  · have hp : w.CodeSet_Validate pass pass.length (cstr "UTF-8") = false := by
      rcases h with h | h
      · rw [hu] at h; cases h
      · exact h
    simp [hu, hp, Call.isModule, Call.isIdentity, Call.isCrypt]
  · simp [hu, Call.isModule, Call.isIdentity, Call.isCrypt]

end Orchestrator

/-- Witness for C1: a user name that is the single byte `0xFF`. -/
theorem auth_invalid_encoding_witness :
    (sampleWorld emptyLoader (samplePam 0 0 0 0)).CodeSet_Validate [255] 1 (cstr "UTF-8") = false ∧
    (Auth_AuthenticateUser cfgPam (sampleWorld emptyLoader (samplePam 0 0 0 0)) AuthState.init
        [255] (cstr "pw")).1 = .returned none :=
  ⟨by decide,
   (auth_invalid_encoding cfgPam (sampleWorld emptyLoader (samplePam 0 0 0 0)) AuthState.init
      [255] (cstr "pw") (Or.inl (by decide))).1⟩


section Fallback

variable (cfg : Config) (w : World) (s : AuthState) (user pass : CStr)

/-- C2: without `USE_PAM`, for a validly encoded user whose record exists with a
non-empty `pw_passwd` and a validly encoded password for which `crypt` yields the
string `namep`: the record is returned when `namep` equals `pw_passwd`, and `NULL`
when it differs. -/
theorem auth_fallback_compare (hcfg : cfg.USE_PAM = false)
    (hu : w.CodeSet_Validate user user.length (cstr "UTF-8") = true)
    (hp : w.CodeSet_Validate pass pass.length (cstr "UTF-8") = true)
    (pwd : passwd) (hrec : w.Posix_Getpwnam user = some pwd) (hne : pwd.pw_passwd ≠ [])
    (namep : CStr) (hc : w.crypt pass pwd.pw_passwd = some namep) :
    (namep = pwd.pw_passwd →
      (Auth_AuthenticateUser cfg w s user pass).1 = .returned (some pwd)) ∧
    (namep ≠ pwd.pw_passwd →
      (Auth_AuthenticateUser cfg w s user pass).1 = .returned none) := by
  constructor
  · intro he
    simp [Auth_AuthenticateUser, Auth_AuthenticateUser_nopam, hcfg, hu, hp, hrec, hne, hc, he]
  · intro he
    simp [Auth_AuthenticateUser, Auth_AuthenticateUser_nopam, hcfg, hu, hp, hrec, hne, hc, he]

/-- C3: without `USE_PAM`, for a validly encoded user whose record exists with an
empty `pw_passwd`, every validly encoded password yields the record, and the trace
holds no `crypt` call. -/
theorem auth_fallback_empty_secret (hcfg : cfg.USE_PAM = false)
    (hu : w.CodeSet_Validate user user.length (cstr "UTF-8") = true)
    (hp : w.CodeSet_Validate pass pass.length (cstr "UTF-8") = true)
    (pwd : passwd) (hrec : w.Posix_Getpwnam user = some pwd) (hempty : pwd.pw_passwd = []) :
    (Auth_AuthenticateUser cfg w s user pass).1 = .returned (some pwd) ∧
    ∀ c ∈ (Auth_AuthenticateUser cfg w s user pass).2.2, c.isCrypt = false := by
  simp [Auth_AuthenticateUser, Auth_AuthenticateUser_nopam, hcfg, hu, hp, hrec, hempty,
    Call.isCrypt]

/-- C4: without `USE_PAM`, for a validly encoded user name that the identity lookup
does not find, every password (validly encoded or not) yields `NULL`, and the trace
holds no `crypt` call. -/
theorem auth_fallback_unknown_user (hcfg : cfg.USE_PAM = false)
    (hu : w.CodeSet_Validate user user.length (cstr "UTF-8") = true)
    (hrec : w.Posix_Getpwnam user = none) :
    (Auth_AuthenticateUser cfg w s user pass).1 = .returned none ∧
    ∀ c ∈ (Auth_AuthenticateUser cfg w s user pass).2.2, c.isCrypt = false := by
  by_cases hp : w.CodeSet_Validate pass pass.length (cstr "UTF-8") = true
  · simp [Auth_AuthenticateUser, Auth_AuthenticateUser_nopam, hcfg, hu, hp, hrec, Call.isCrypt]
  · simp [Auth_AuthenticateUser, hu, hp, Call.isCrypt]

end Fallback

/-- Witness for C2: `alice` with the right and with a wrong password. -/
theorem auth_fallback_compare_witness :
    (Auth_AuthenticateUser cfgNoPam (sampleWorld emptyLoader (samplePam 0 0 0 0)) AuthState.init
        (cstr "alice") (cstr "pass")).1 = .returned (some alice) ∧
    (Auth_AuthenticateUser cfgNoPam (sampleWorld emptyLoader (samplePam 0 0 0 0)) AuthState.init
        (cstr "alice") (cstr "word")).1 = .returned none :=
  ⟨(auth_fallback_compare cfgNoPam (sampleWorld emptyLoader (samplePam 0 0 0 0)) AuthState.init
      (cstr "alice") (cstr "pass") rfl (by decide) (by decide) alice (by decide) (by decide)
      (cstr "abqbtt") (by decide)).1 (by decide),
   (auth_fallback_compare cfgNoPam (sampleWorld emptyLoader (samplePam 0 0 0 0)) AuthState.init
      (cstr "alice") (cstr "word") rfl (by decide) (by decide) alice (by decide) (by decide)
      (cstr "abxpse") (by decide)).2 (by decide)⟩

/-- Witness for C3: `guest` has an empty `pw_passwd`. -/
theorem auth_fallback_empty_secret_witness :
    (Auth_AuthenticateUser cfgNoPam (sampleWorld emptyLoader (samplePam 0 0 0 0)) AuthState.init
        (cstr "guest") (cstr "anything")).1 = .returned (some guest) :=
  (auth_fallback_empty_secret cfgNoPam (sampleWorld emptyLoader (samplePam 0 0 0 0))
    AuthState.init (cstr "guest") (cstr "anything") rfl (by decide) (by decide) guest
    (by decide) rfl).1

/-- Witness for C4: `bob` is not in the sample database. -/
theorem auth_fallback_unknown_user_witness :
    (Auth_AuthenticateUser cfgNoPam (sampleWorld emptyLoader (samplePam 0 0 0 0)) AuthState.init
        (cstr "bob") (cstr "pass")).1 = .returned none :=
  (auth_fallback_unknown_user cfgNoPam (sampleWorld emptyLoader (samplePam 0 0 0 0))
    AuthState.init (cstr "bob") (cstr "pass") rfl (by decide) (by decide)).1

/-! ### The symbol loop -/

section Loader

variable (cfg : Config) (ld : Loader) (lib : Nat)

theorem getSlot_setSlot (s : AuthState) (p q : Slot) (v : Nat) :
    (s.setSlot p v).getSlot q = if q = p then some v else s.getSlot q := by
  cases p <;> cases q <;> simp [AuthState.setSlot, AuthState.getSlot]

theorem setSlot_frame (s : AuthState) (p : Slot) (v : Nat) :
    (s.setSlot p v).authPamLibraryHandle = s.authPamLibraryHandle ∧
    (s.setSlot p v).PAM_username = s.PAM_username ∧
    (s.setSlot p v).PAM_password = s.PAM_password := by
  cases p <;> simp [AuthState.setSlot]

/-- The loop writes nothing but the table. -/
theorem loop_frame (l : List (Slot × CStr)) (s : AuthState) :
    (AuthLoadPAM_loop ld lib l s).2.1.authPamLibraryHandle = s.authPamLibraryHandle ∧
    (AuthLoadPAM_loop ld lib l s).2.1.PAM_username = s.PAM_username ∧
    (AuthLoadPAM_loop ld lib l s).2.1.PAM_password = s.PAM_password := by
  induction l generalizing s with
  | nil => simp [AuthLoadPAM_loop]
  | cons e rest ih =>
    obtain ⟨p, n⟩ := e
    unfold AuthLoadPAM_loop
    cases hd : ld.dlsym lib n with
    | none => simp
    | some v =>
      simp only
      have h1 := ih (s.setSlot p v)
      have h2 := setSlot_frame s p v
      exact ⟨h1.1.trans h2.1, h1.2.1.trans h2.2.1, h1.2.2.trans h2.2.2⟩

/-- Slots that are not named in the remaining entries keep their value. -/
theorem loop_getSlot_of_not_mem (l : List (Slot × CStr)) (s : AuthState) (q : Slot)
    (hq : q ∉ l.map Prod.fst) :
    (AuthLoadPAM_loop ld lib l s).2.1.getSlot q = s.getSlot q := by
  induction l generalizing s with
  | nil => simp [AuthLoadPAM_loop]
  | cons e rest ih =>
    obtain ⟨p, n⟩ := e
    simp only [List.map_cons, List.mem_cons, not_or] at hq
    unfold AuthLoadPAM_loop
    cases hd : ld.dlsym lib n with
    | none => simp
    | some v =>
      simp only
      rw [ih (s.setSlot p v) hq.2, getSlot_setSlot, if_neg hq.1]

/-- The loop succeeds exactly when every remaining symbol resolves. -/
theorem loop_ok_iff (l : List (Slot × CStr)) (s : AuthState) :
    (AuthLoadPAM_loop ld lib l s).1 = true ↔ ∀ e ∈ l, (ld.dlsym lib e.2).isSome = true := by
  induction l generalizing s with
  | nil => simp [AuthLoadPAM_loop]
  | cons e rest ih =>
    obtain ⟨p, n⟩ := e
    unfold AuthLoadPAM_loop
    cases hd : ld.dlsym lib n with
    | none => simp [hd]
    | some v => simp [hd, ih]

/-- Result and calls of the loop do not depend on the statics. -/
theorem loop_indep (l : List (Slot × CStr)) (s t : AuthState) :
    (AuthLoadPAM_loop ld lib l s).1 = (AuthLoadPAM_loop ld lib l t).1 ∧
    (AuthLoadPAM_loop ld lib l s).2.2 = (AuthLoadPAM_loop ld lib l t).2.2 := by
  induction l generalizing s t with
  | nil => simp [AuthLoadPAM_loop]
  | cons e rest ih =>
    obtain ⟨p, n⟩ := e
    unfold AuthLoadPAM_loop
    cases hd : ld.dlsym lib n with
    | none => simp
    | some v =>
      simp only
      exact ⟨(ih _ _).1, by rw [(ih (s.setSlot p v) (t.setSlot p v)).2]⟩

/-- The library is closed exactly when the loop fails, and then as the last call. -/
theorem loop_dlclose (l : List (Slot × CStr)) (s : AuthState) :
    ((AuthLoadPAM_loop ld lib l s).1 = false →
      ∃ t, (AuthLoadPAM_loop ld lib l s).2.2 = t ++ [Call.dlclose lib]) ∧
    ((AuthLoadPAM_loop ld lib l s).1 = true →
      ∀ h, Call.dlclose h ∉ (AuthLoadPAM_loop ld lib l s).2.2) := by
  induction l generalizing s with
  | nil => simp [AuthLoadPAM_loop]
  | cons e rest ih =>
    obtain ⟨p, n⟩ := e
    unfold AuthLoadPAM_loop
    cases hd : ld.dlsym lib n with
    | none =>
      refine ⟨fun _ => ⟨[.dlsym lib n, .dlerror, .Log .missingFunction], by simp⟩, ?_⟩
      simp
    | some v =>
      simp only
      constructor
      · intro hf
        obtain ⟨t, ht⟩ := (ih (s.setSlot p v)).1 hf
        exact ⟨.dlsym lib n :: t, by rw [ht]; simp⟩
      · intro hs h
        have := (ih (s.setSlot p v)).2 hs h
        simpa using this

/-- An entry all of whose predecessors resolve, and which resolves itself, is stored. -/
theorem loop_getSlot_resolved (pre post : List (Slot × CStr)) (p : Slot) (n : CStr) (v : Nat)
    (s : AuthState) (hnd : ((pre ++ (p, n) :: post).map Prod.fst).Nodup)
    (hpre : ∀ e ∈ pre, (ld.dlsym lib e.2).isSome = true) (hv : ld.dlsym lib n = some v) :
    (AuthLoadPAM_loop ld lib (pre ++ (p, n) :: post) s).2.1.getSlot p = some v := by
  induction pre generalizing s with
  | nil =>
    simp only [List.nil_append, List.map_cons, List.nodup_cons] at hnd
    simp only [List.nil_append]
    unfold AuthLoadPAM_loop
    simp only [hv]
    rw [loop_getSlot_of_not_mem ld lib post _ p hnd.1, getSlot_setSlot, if_pos rfl]
  | cons e pre' ih =>
    obtain ⟨q, m⟩ := e
    have hq := hpre (q, m) (by simp)
    simp only [List.cons_append, List.map_cons, List.nodup_cons] at hnd
    simp only [List.cons_append]
    unfold AuthLoadPAM_loop
    cases hd : ld.dlsym lib m with
    | none => simp [hd] at hq
    | some u =>
      simp only
      exact ih _ hnd.2 (fun e he => hpre e (by simp [he]))

/-- An entry at or after the first unresolved symbol is left as it was. -/
theorem loop_getSlot_untouched (pre post : List (Slot × CStr)) (p : Slot) (n : CStr)
    (s : AuthState) (hnd : ((pre ++ (p, n) :: post).map Prod.fst).Nodup)
    (hmiss : ∃ e ∈ pre ++ [(p, n)], ld.dlsym lib e.2 = none) :
    (AuthLoadPAM_loop ld lib (pre ++ (p, n) :: post) s).2.1.getSlot p = s.getSlot p := by
  induction pre generalizing s with
  | nil =>
    obtain ⟨e, he, hn⟩ := hmiss
    simp only [List.nil_append, List.mem_singleton] at he
    subst he
    simp only [List.nil_append]
    unfold AuthLoadPAM_loop
    simp only at hn
    simp [hn]
  | cons e pre' ih =>
    obtain ⟨q, m⟩ := e
    simp only [List.cons_append, List.map_cons, List.nodup_cons] at hnd
    simp only [List.cons_append]
    unfold AuthLoadPAM_loop
    cases hd : ld.dlsym lib m with
    | none => simp
    | some u =>
      simp only
      have hmiss' : ∃ e ∈ pre' ++ [(p, n)], ld.dlsym lib e.2 = none := by
        obtain ⟨e, he, hn⟩ := hmiss
        simp only [List.cons_append, List.mem_cons] at he
        rcases he with he | he
        · subst he; simp [hd] at hn
        · exact ⟨e, he, hn⟩
      rw [ih _ hnd.2 hmiss', getSlot_setSlot]
      have hpq : p ≠ q := by
        intro h
        apply hnd.1
        simp [h]
      simp [hpq]

theorem authPAMImported_nodup : (authPAMImported.map Prod.fst).Nodup := by decide

end Loader

/-! ### `AuthLoadPAM` -/

section Load

variable (cfg : Config) (ld : Loader)

/-- With the handle set, `AuthLoadPAM` returns `TRUE` at once. -/
theorem AuthLoadPAM_of_bound (s : AuthState) (h : s.authPamLibraryHandle.isSome = true) :
    AuthLoadPAM cfg ld s = (true, s, []) := by
  simp [AuthLoadPAM, h]

/-- With the handle unset, `AuthLoadPAM` is the search followed by the loop. -/
theorem AuthLoadPAM_of_unbound (s : AuthState) (h : s.authPamLibraryHandle = none) :
    AuthLoadPAM cfg ld s =
      match AuthLoadPAM_open cfg ld with
      | (none, tr) => (false, s, tr)
      | (some pam_library, tr) =>
        if (AuthLoadPAM_loop ld pam_library authPAMImported s).1 = true then
          (true, { (AuthLoadPAM_loop ld pam_library authPAMImported s).2.1 with
                     authPamLibraryHandle := some pam_library },
           tr ++ (AuthLoadPAM_loop ld pam_library authPAMImported s).2.2 ++ [.Log .pamUp])
        else
          (false, (AuthLoadPAM_loop ld pam_library authPAMImported s).2.1,
           tr ++ (AuthLoadPAM_loop ld pam_library authPAMImported s).2.2) := by
  unfold AuthLoadPAM
  simp only [h, Option.isSome_none, Bool.false_eq_true, if_false]
  rcases hopen : AuthLoadPAM_open cfg ld with ⟨_ | pam_library, tr⟩
  · rfl
  · simp only
    rcases hloop : AuthLoadPAM_loop ld pam_library authPAMImported s with ⟨_ | _, s1, tr1⟩ <;> simp

/-- The search makes at least the first `Posix_Dlopen` call. -/
theorem AuthLoadPAM_open_binds :
    Call.Posix_Dlopen (CURRENT_PAM_LIBRARY cfg) ∈ (AuthLoadPAM_open cfg ld).2 := by
  unfold AuthLoadPAM_open
  cases ld.Posix_Dlopen (CURRENT_PAM_LIBRARY cfg) with
  | some lib => simp
  | none =>
    simp only
    split
    · simp
    · cases ld.LocalConfig_GetPathName with
      | none => simp
      | some libdir =>
        simp only
        split <;> simp

/-- A `TRUE` result leaves the handle set; a `FALSE` result leaves it unset. -/
theorem AuthLoadPAM_handle (s : AuthState) :
    (AuthLoadPAM cfg ld s).2.1.authPamLibraryHandle.isSome = (AuthLoadPAM cfg ld s).1 := by
  cases h : s.authPamLibraryHandle with
  | some lib => rw [AuthLoadPAM_of_bound cfg ld s (by simp [h])]; simp [h]
  | none =>
    rw [AuthLoadPAM_of_unbound cfg ld s h]
    rcases hopen : AuthLoadPAM_open cfg ld with ⟨_ | pam_library, tr⟩
    · simp [h]
    · simp only
      split
      · simp
      · simp [(loop_frame ld pam_library authPAMImported s).1, h]

/-- `AuthLoadPAM` never touches the published credentials. -/
theorem AuthLoadPAM_creds (s : AuthState) :
    (AuthLoadPAM cfg ld s).2.1.PAM_username = s.PAM_username ∧
    (AuthLoadPAM cfg ld s).2.1.PAM_password = s.PAM_password := by
  cases h : s.authPamLibraryHandle with
  | some lib => rw [AuthLoadPAM_of_bound cfg ld s (by simp [h])]; simp
  | none =>
    rw [AuthLoadPAM_of_unbound cfg ld s h]
    rcases hopen : AuthLoadPAM_open cfg ld with ⟨_ | pam_library, tr⟩
    · simp
    · simp only
      have hf := loop_frame ld pam_library authPAMImported s
      split
      · exact ⟨hf.2.1, hf.2.2⟩
      · exact ⟨hf.2.1, hf.2.2⟩

/-- A handle set by this call comes with all six entries resolved from it. -/
theorem AuthLoadPAM_binds_all (s : AuthState) (h : s.authPamLibraryHandle = none)
    (lib : Nat) (hlib : (AuthLoadPAM cfg ld s).2.1.authPamLibraryHandle = some lib) :
    (AuthLoadPAM cfg ld s).1 = true ∧
    ∀ e ∈ authPAMImported,
      (ld.dlsym lib e.2).isSome = true ∧
      (AuthLoadPAM cfg ld s).2.1.getSlot e.1 = ld.dlsym lib e.2 := by
  have hh := AuthLoadPAM_handle cfg ld s
  rw [hlib] at hh
  refine ⟨by simpa using hh.symm, ?_⟩
  rw [AuthLoadPAM_of_unbound cfg ld s h] at hlib ⊢
  rcases hopen : AuthLoadPAM_open cfg ld with ⟨_ | pam_library, tr⟩
  · rw [hopen] at hlib; simp [h] at hlib
  · rw [hopen] at hlib
    simp only at hlib ⊢
    by_cases hok : (AuthLoadPAM_loop ld pam_library authPAMImported s).1 = true
    · rw [if_pos hok] at hlib ⊢
      simp only [Option.some.injEq] at hlib
      subst hlib
      have hall := (loop_ok_iff ld pam_library authPAMImported s).1 hok
      intro e he
      refine ⟨hall e he, ?_⟩
      obtain ⟨pre, post, hsplit⟩ := List.append_of_mem he
      obtain ⟨v, hv⟩ := Option.isSome_iff_exists.1 (hall e he)
      have hnd := authPAMImported_nodup
      rw [hsplit] at hnd
      have hpre : ∀ x ∈ pre, (ld.dlsym pam_library x.2).isSome = true :=
        fun x hx => hall x (by rw [hsplit]; simp [hx])
      have := loop_getSlot_resolved ld pam_library pre post e.1 e.2 v s hnd hpre hv
      rw [← hsplit] at this
      rw [hv, ← this]
      cases e.1 <;> rfl
    · rw [if_neg hok] at hlib
      rw [(loop_frame ld pam_library authPAMImported s).1, h] at hlib
      cases hlib

theorem bound_iff (s : AuthState) :
    s.bound = true ↔ ∀ e ∈ authPAMImported, (s.getSlot e.1).isSome = true := by
  simp [AuthState.bound, authPAMImported, AuthState.getSlot]
  tauto

/-- The invariant holds initially and `AuthLoadPAM` keeps it. -/
theorem WF_init : AuthState.init.WF = true := by decide

theorem AuthLoadPAM_WF (s : AuthState) (hwf : s.WF = true) :
    (AuthLoadPAM cfg ld s).2.1.WF = true := by
  cases h : s.authPamLibraryHandle with
  | some lib => rw [AuthLoadPAM_of_bound cfg ld s (by simp [h])]; exact hwf
  | none =>
    cases hl : (AuthLoadPAM cfg ld s).2.1.authPamLibraryHandle with
    | none => simp [AuthState.WF, hl]
    | some lib =>
      have hb := (AuthLoadPAM_binds_all cfg ld s h lib hl).2
      have : (AuthLoadPAM cfg ld s).2.1.bound = true := by
        rw [bound_iff]
        intro e he
        rw [(hb e he).2]
        exact (hb e he).1
      simp [AuthState.WF, this]

/-- After a `TRUE` result from a state satisfying the invariant, all six pointers
are non-null. -/
theorem AuthLoadPAM_bound (s : AuthState) (hwf : s.WF = true)
    (hok : (AuthLoadPAM cfg ld s).1 = true) : (AuthLoadPAM cfg ld s).2.1.bound = true := by
  have h1 := AuthLoadPAM_WF cfg ld s hwf
  have h2 := AuthLoadPAM_handle cfg ld s
  rw [hok] at h2
  simpa [AuthState.WF, h2] using h1

end Load

/-! ### C7, C8: caching and all-or-nothing binding -/

section Caching

variable (cfg : Config)

/-- Once the handle is set, any number of further calls return `TRUE`, call
nothing and change nothing. -/
theorem AuthLoadPAM_calls_of_bound (lds : List Loader) (s : AuthState)
    (h : s.authPamLibraryHandle.isSome = true) :
    AuthLoadPAM_calls cfg lds s = (lds.map (fun _ => (true, [])), s) := by
  induction lds with
  | nil => rfl
  | cons ld rest ih =>
    unfold AuthLoadPAM_calls
    simp only [AuthLoadPAM_of_bound cfg ld s h, ih, List.map_cons]

/-- In a run of calls, every call after one that returned `TRUE` returns `TRUE`
without calling anything. -/
theorem AuthLoadPAM_calls_after_true (lds : List Loader) (s : AuthState)
    (pre post : List (Bool × List Call)) (t : List Call)
    (hrun : (AuthLoadPAM_calls cfg lds s).1 = pre ++ (true, t) :: post) :
    ∀ r ∈ post, r = (true, []) := by
  induction lds generalizing s pre with
  | nil => simp [AuthLoadPAM_calls] at hrun
  | cons ld rest ih =>
    unfold AuthLoadPAM_calls at hrun
    simp only at hrun
    cases pre with
    | nil =>
      simp only [List.nil_append, List.cons.injEq, Prod.mk.injEq] at hrun
      have hb : (AuthLoadPAM cfg ld s).2.1.authPamLibraryHandle.isSome = true := by
        rw [AuthLoadPAM_handle]; exact hrun.1.1
      rw [AuthLoadPAM_calls_of_bound cfg rest _ hb] at hrun
      intro r hr
      rw [← hrun.2] at hr
      simp only [List.mem_map] at hr
      obtain ⟨_, _, rfl⟩ := hr
      rfl
    | cons p pre' =>
      simp only [List.cons_append, List.cons.injEq] at hrun
      exact ih _ pre' hrun.2

/-- A call that returned `FALSE` is repeated in full by the next call: with the
same loader behaviour it makes the same calls again and returns `FALSE` again. -/
theorem AuthLoadPAM_retry (ld : Loader) (s : AuthState)
    (hfail : (AuthLoadPAM cfg ld s).1 = false) :
    AuthLoadPAM cfg ld (AuthLoadPAM cfg ld s).2.1 =
      (false, (AuthLoadPAM cfg ld (AuthLoadPAM cfg ld s).2.1).2.1, (AuthLoadPAM cfg ld s).2.2) ∧
    Call.Posix_Dlopen (CURRENT_PAM_LIBRARY cfg) ∈ (AuthLoadPAM cfg ld s).2.2 := by
  have hh := AuthLoadPAM_handle cfg ld s
  rw [hfail] at hh
  have hnone' : (AuthLoadPAM cfg ld s).2.1.authPamLibraryHandle = none := by
    cases hx : (AuthLoadPAM cfg ld s).2.1.authPamLibraryHandle with
    | none => rfl
    | some v => rw [hx] at hh; simp at hh
  have hnone : s.authPamLibraryHandle = none := by
    cases hx : s.authPamLibraryHandle with
    | none => rfl
    | some v => rw [AuthLoadPAM_of_bound cfg ld s (by simp [hx])] at hfail; simp at hfail
  have hob := AuthLoadPAM_open_binds cfg ld
  rw [AuthLoadPAM_of_unbound cfg ld _ hnone']
  rw [AuthLoadPAM_of_unbound cfg ld s hnone] at hfail ⊢
  rcases hopen : AuthLoadPAM_open cfg ld with ⟨_ | lib, tr⟩
  · rw [hopen] at hob
    exact ⟨rfl, hob⟩
  · rw [hopen] at hfail hob
    simp only at hfail hob ⊢
    by_cases hok : (AuthLoadPAM_loop ld lib authPAMImported s).1 = true
    · rw [if_pos hok] at hfail; simp at hfail
    · rw [if_neg hok]
      simp only
      have hi := loop_indep ld lib authPAMImported
        (AuthLoadPAM_loop ld lib authPAMImported s).2.1 s
      rw [if_neg (by rw [hi.1]; exact hok), hi.2]
      exact ⟨rfl, by simp [hob]⟩

/-- C7, as amended: only success is cached. In every run of calls, whatever the
loader does at each of them, each call after one that returned `TRUE` returns
`TRUE` without calling the loader, and calls made with the handle set leave the
statics as they are; a call that returned `FALSE` leaves the handle unset, and
the next call with the same loader behaviour repeats the same calls, among them
`Posix_Dlopen`, and returns `FALSE` again. -/
theorem AuthLoadPAM_caches_success_only :
    (∀ (lds : List Loader) (s : AuthState) (pre post : List (Bool × List Call)) (t : List Call),
      (AuthLoadPAM_calls cfg lds s).1 = pre ++ (true, t) :: post → ∀ r ∈ post, r = (true, [])) ∧
    (∀ (lds : List Loader) (s : AuthState), s.authPamLibraryHandle.isSome = true →
      AuthLoadPAM_calls cfg lds s = (lds.map (fun _ => (true, [])), s)) ∧
    (∀ (ld : Loader) (s : AuthState), (AuthLoadPAM cfg ld s).1 = false →
      (AuthLoadPAM cfg ld s).2.1.authPamLibraryHandle = none ∧
      (AuthLoadPAM_calls cfg [ld, ld] s).1 =
        [(false, (AuthLoadPAM cfg ld s).2.2), (false, (AuthLoadPAM cfg ld s).2.2)] ∧
      Call.Posix_Dlopen (CURRENT_PAM_LIBRARY cfg) ∈ (AuthLoadPAM cfg ld s).2.2) := by
  refine ⟨AuthLoadPAM_calls_after_true cfg, AuthLoadPAM_calls_of_bound cfg, ?_⟩
  intro ld s hfail
  have hr := AuthLoadPAM_retry cfg ld s hfail
  have hh := AuthLoadPAM_handle cfg ld s
  rw [hfail] at hh
  refine ⟨?_, ?_, hr.2⟩
  · cases hx : (AuthLoadPAM cfg ld s).2.1.authPamLibraryHandle with
    | none => rfl
    | some v => rw [hx] at hh; simp at hh
  · simp only [AuthLoadPAM_calls]
    rw [hr.1, hfail]

end Caching

/-- Counterexample for C7: with a loader that finds no library, two calls both
return `FALSE` and each of them calls `Posix_Dlopen`; and when the library appears
between the calls, the first returns `FALSE` and the second `TRUE`. -/
theorem AuthLoadPAM_failure_not_cached :
    (AuthLoadPAM_calls cfgPam [emptyLoader, emptyLoader] AuthState.init).1.map
        (fun r => (r.1, (r.2.filter Call.isBind).length)) = [(false, 1), (false, 1)] ∧
    (AuthLoadPAM_calls cfgPam [emptyLoader, sampleLoader fullNames] AuthState.init).1.map
        Prod.fst = [false, true] := by
  constructor <;> decide

/-- Witness for C7: three calls, the library being there from the second on. -/
theorem AuthLoadPAM_caches_success_only_witness :
    (AuthLoadPAM_calls cfgPam [emptyLoader, sampleLoader fullNames, emptyLoader]
        AuthState.init).1.map Prod.fst = [false, true, true] ∧
    ∀ r ∈ [((true : Bool), ([] : List Call))], r = (true, []) :=
  ⟨by decide,
   (AuthLoadPAM_caches_success_only cfgPam).1
     [emptyLoader, sampleLoader fullNames, emptyLoader] AuthState.init
     [(false, (AuthLoadPAM cfgPam emptyLoader AuthState.init).2.2)]
     [(true, [])]
     (AuthLoadPAM cfgPam (sampleLoader fullNames)
        (AuthLoadPAM cfgPam emptyLoader AuthState.init).2.1).2.2
     (by decide)⟩

section AllOrNothing

variable (cfg : Config) (ld : Loader)

/-- C8, as amended: from a state with the handle unset, a library that loads but
lacks a required symbol makes `AuthLoadPAM` return `FALSE`, with `dlclose` of that
library as its last call and the handle still unset; a table entry all of whose
predecessors in `authPAMImported`, and itself, resolve has been overwritten with
the symbol of that library, every other entry is as before. And whenever the call
leaves the handle set, it returned `TRUE` and each of the six entries holds the
symbol resolved from the library the handle names. -/
theorem AuthLoadPAM_all_or_nothing (s : AuthState) (h : s.authPamLibraryHandle = none) :
    (∀ (lib : Nat) (tr0 : List Call), AuthLoadPAM_open cfg ld = (some lib, tr0) →
      (∃ e ∈ authPAMImported, ld.dlsym lib e.2 = none) →
      (AuthLoadPAM cfg ld s).1 = false ∧
      (∃ t, (AuthLoadPAM cfg ld s).2.2 = t ++ [Call.dlclose lib]) ∧
      (AuthLoadPAM cfg ld s).2.1.authPamLibraryHandle = none ∧
      ∀ (pre post : List (Slot × CStr)) (p : Slot) (n : CStr),
        authPAMImported = pre ++ (p, n) :: post →
        ((∀ e ∈ pre ++ [(p, n)], (ld.dlsym lib e.2).isSome = true) →
          (AuthLoadPAM cfg ld s).2.1.getSlot p = ld.dlsym lib n) ∧
        ((∃ e ∈ pre ++ [(p, n)], ld.dlsym lib e.2 = none) →
          (AuthLoadPAM cfg ld s).2.1.getSlot p = s.getSlot p)) ∧
    (∀ lib : Nat, (AuthLoadPAM cfg ld s).2.1.authPamLibraryHandle = some lib →
      (AuthLoadPAM cfg ld s).1 = true ∧
      ∀ e ∈ authPAMImported,
        (ld.dlsym lib e.2).isSome = true ∧
        (AuthLoadPAM cfg ld s).2.1.getSlot e.1 = ld.dlsym lib e.2) := by
  refine ⟨?_, AuthLoadPAM_binds_all cfg ld s h⟩
  intro lib tr0 hopen hmiss
  have hnot : ¬ (AuthLoadPAM_loop ld lib authPAMImported s).1 = true := by
    rw [loop_ok_iff]
    intro hall
    obtain ⟨e, he, hn⟩ := hmiss
    have := hall e he
    rw [hn] at this
    simp at this
  rw [AuthLoadPAM_of_unbound cfg ld s h, hopen]
  simp only [if_neg hnot]
  refine ⟨trivial, ?_, ?_, ?_⟩
  · obtain ⟨t, ht⟩ := (loop_dlclose ld lib authPAMImported s).1 (by simpa using hnot)
    exact ⟨tr0 ++ t, by rw [ht]; simp⟩
  · rw [(loop_frame ld lib authPAMImported s).1, h]
  · intro pre post p n hsplit
    have hnd := authPAMImported_nodup
    rw [hsplit] at hnd ⊢
    constructor
    · intro hall
      obtain ⟨v, hv⟩ := Option.isSome_iff_exists.1 (hall (p, n) (by simp))
      rw [hv]
      exact loop_getSlot_resolved ld lib pre post p n v s hnd
        (fun e he => hall e (by simp [he])) hv
    · intro hm
      exact loop_getSlot_untouched ld lib pre post p n s hnd hm

end AllOrNothing

/-- Counterexample for C8: the library at address 7 loads and has `pam_start`,
`pam_end` and `pam_authenticate` but no `pam_setcred`. The call returns `FALSE`
with the handle unset, and yet `dlpam_start`, null before the call, now holds the
address resolved from that library. -/
theorem AuthLoadPAM_keeps_resolved_entries :
    (AuthLoadPAM_open cfgPam (sampleLoader (fullNames.take 3))).1 = some 7 ∧
    (sampleLoader (fullNames.take 3)).dlsym 7 (cstr "pam_setcred") = none ∧
    (AuthLoadPAM cfgPam (sampleLoader (fullNames.take 3)) AuthState.init).1 = false ∧
    (AuthLoadPAM cfgPam (sampleLoader (fullNames.take 3))
        AuthState.init).2.1.authPamLibraryHandle = none ∧
    AuthState.init.dlpam_start = none ∧
    (AuthLoadPAM cfgPam (sampleLoader (fullNames.take 3)) AuthState.init).2.1.dlpam_start
      = some 100 := by
  refine ⟨?_, ?_, ?_, ?_, ?_, ?_⟩ <;> decide

/-- Witness for C8: the same library, from the initial state. -/
theorem AuthLoadPAM_all_or_nothing_witness :
    (AuthLoadPAM cfgPam (sampleLoader (fullNames.take 3)) AuthState.init).1 = false :=
  ((AuthLoadPAM_all_or_nothing cfgPam (sampleLoader (fullNames.take 3)) AuthState.init rfl).1
    7 [.Posix_Dlopen (cstr "libpam.so.0")] (by decide)
    ⟨(.dlpam_setcred, cstr "pam_setcred"), by decide, by decide⟩).1

/-! ### The module path -/

section ModulePath

variable (cfg : Config) (w : World) (s : AuthState) (user pass : CStr)

/-- `Auth_AuthenticateUser_pam` in terms of the components of `AuthLoadPAM`. -/
theorem Auth_pam_eq :
    Auth_AuthenticateUser_pam cfg w s user pass =
      if (AuthLoadPAM cfg w.loader s).1 = true then
        match ((AuthLoadPAM cfg w.loader s).2.1.publish user pass).dlpam_start with
        | none => (.crashed, (AuthLoadPAM cfg w.loader s).2.1.publish user pass,
                   (AuthLoadPAM cfg w.loader s).2.2)
        | some fstart =>
          let s2 := (AuthLoadPAM cfg w.loader s).2.1.publish user pass
          let r := w.pam.pam_start fstart (serviceName cfg) (some user) (PAM_conv w.alloc s2)
          let tr1 : List Call := (AuthLoadPAM cfg w.loader s).2.2 ++
            [.pam_start fstart (serviceName cfg) (some user)]
          if r.1 ≠ PAM_SUCCESS then (.returned none, s2, tr1 ++ [.Log (.failedToStartPam r.1)])
          else ((Auth_checks w s2 r.2 user).1, s2, tr1 ++ (Auth_checks w s2 r.2 user).2)
      else (.returned none, (AuthLoadPAM cfg w.loader s).2.1, (AuthLoadPAM cfg w.loader s).2.2) := by
  unfold Auth_AuthenticateUser_pam
  rcases AuthLoadPAM cfg w.loader s with ⟨_ | _, s1, tr⟩
  · simp
  · simp only [if_true]
    cases h : (s1.publish user pass).dlpam_start <;> simp [AuthState.publish]

/-- The checks, when the five pointers they call through are non-null. -/
theorem Auth_checks_eq (pamh fend fauth fcred facct fstrerror : Nat)
    (h1 : s.dlpam_end = some fend) (h2 : s.dlpam_authenticate = some fauth)
    (h3 : s.dlpam_setcred = some fcred) (h4 : s.dlpam_acct_mgmt = some facct)
    (h5 : s.dlpam_strerror = some fstrerror) :
    Auth_checks w s pamh user =
      if w.pam.pam_authenticate fauth pamh 0 (PAM_conv w.alloc s) ≠ PAM_SUCCESS then
        (.returned none,
         [.pam_authenticate fauth pamh 0,
          .pam_strerror fstrerror pamh (w.pam.pam_authenticate fauth pamh 0 (PAM_conv w.alloc s)),
          .Log (.pamFailure (w.pam.pam_authenticate fauth pamh 0 (PAM_conv w.alloc s))),
          .pam_end fend pamh (w.pam.pam_authenticate fauth pamh 0 (PAM_conv w.alloc s))])
      else if w.pam.pam_acct_mgmt facct pamh 0 (PAM_conv w.alloc s) ≠ PAM_SUCCESS then
        (.returned none,
         [.pam_authenticate fauth pamh 0, .pam_acct_mgmt facct pamh 0,
          .pam_strerror fstrerror pamh (w.pam.pam_acct_mgmt facct pamh 0 (PAM_conv w.alloc s)),
          .Log (.pamFailure (w.pam.pam_acct_mgmt facct pamh 0 (PAM_conv w.alloc s))),
          .pam_end fend pamh (w.pam.pam_acct_mgmt facct pamh 0 (PAM_conv w.alloc s))])
      else if w.pam.pam_setcred fcred pamh PAM_ESTABLISH_CRED (PAM_conv w.alloc s)
          ≠ PAM_SUCCESS then
        (.returned none,
         [.pam_authenticate fauth pamh 0, .pam_acct_mgmt facct pamh 0,
          .pam_setcred fcred pamh PAM_ESTABLISH_CRED,
          .pam_strerror fstrerror pamh
            (w.pam.pam_setcred fcred pamh PAM_ESTABLISH_CRED (PAM_conv w.alloc s)),
          .Log (.pamFailure
            (w.pam.pam_setcred fcred pamh PAM_ESTABLISH_CRED (PAM_conv w.alloc s))),
          .pam_end fend pamh
            (w.pam.pam_setcred fcred pamh PAM_ESTABLISH_CRED (PAM_conv w.alloc s))])
      else
        (.returned (w.Posix_Getpwnam user),
         [.pam_authenticate fauth pamh 0, .pam_acct_mgmt facct pamh 0,
          .pam_setcred fcred pamh PAM_ESTABLISH_CRED, .pam_end fend pamh PAM_SUCCESS,
          .setpwent, .Posix_Getpwnam user, .endpwent]) := by
  unfold Auth_checks PAM_BAIL
  simp only [h1, h2, h3, h4, h5]
  split
  · simp
  · split
    · simp
    · split <;> simp

theorem bound_pointers (t : AuthState) (h : t.bound = true) :
    ∃ fstart fend fauth fcred facct fstrerror,
      t.dlpam_start = some fstart ∧ t.dlpam_end = some fend ∧
      t.dlpam_authenticate = some fauth ∧ t.dlpam_setcred = some fcred ∧
      t.dlpam_acct_mgmt = some facct ∧ t.dlpam_strerror = some fstrerror := by
  simp only [AuthState.bound, Bool.and_eq_true, Option.isSome_iff_exists] at h
  obtain ⟨⟨⟨⟨⟨⟨a, ha⟩, ⟨b, hb⟩⟩, ⟨c, hc⟩⟩, ⟨d, hd⟩⟩, ⟨e, he⟩⟩, ⟨f, hf⟩⟩ := h
  exact ⟨a, b, c, d, e, f, ha, hb, hc, hd, he, hf⟩

/-- C5: with `USE_PAM`, valid encodings, statics satisfying the invariant and
`AuthLoadPAM` returning `TRUE`, all six pointers of the table are non-null, and
whenever `pam_start` returns `PAM_SUCCESS` with session `pamh`, the calls made
after `pam_start`, restricted to the three checks and the teardown, are
`pam_authenticate`, `pam_acct_mgmt`, `pam_setcred` cut off after the first one
with a code other than `PAM_SUCCESS`, followed by one `pam_end`; in that case the
`pam_end` is the last call of all and the result is `NULL`, whatever the checks
not called would have returned. -/
theorem auth_module_sequence (hcfg : cfg.USE_PAM = true)
    (hu : w.CodeSet_Validate user user.length (cstr "UTF-8") = true)
    (hp : w.CodeSet_Validate pass pass.length (cstr "UTF-8") = true)
    (hwf : s.WF = true) (hload : (AuthLoadPAM cfg w.loader s).1 = true) :
    ∃ fstart fend fauth fcred facct fstrerror : Nat,
      ((AuthLoadPAM cfg w.loader s).2.1.publish user pass).dlpam_start = some fstart ∧
      ((AuthLoadPAM cfg w.loader s).2.1.publish user pass).dlpam_end = some fend ∧
      ((AuthLoadPAM cfg w.loader s).2.1.publish user pass).dlpam_authenticate = some fauth ∧
      ((AuthLoadPAM cfg w.loader s).2.1.publish user pass).dlpam_setcred = some fcred ∧
      ((AuthLoadPAM cfg w.loader s).2.1.publish user pass).dlpam_acct_mgmt = some facct ∧
      ((AuthLoadPAM cfg w.loader s).2.1.publish user pass).dlpam_strerror = some fstrerror ∧
      ∀ pamh : Nat,
        w.pam.pam_start fstart (serviceName cfg) (some user)
          (PAM_conv w.alloc ((AuthLoadPAM cfg w.loader s).2.1.publish user pass))
          = (PAM_SUCCESS, pamh) →
        ∃ rest : List Call,
          (Auth_AuthenticateUser cfg w s user pass).2.2 =
            [.CodeSet_Validate user, .CodeSet_Validate pass] ++
              ((AuthLoadPAM cfg w.loader s).2.2 ++
                [.pam_start fstart (serviceName cfg) (some user)] ++ rest) ∧
          ∀ e1 e2 e3 : Int,
            e1 = w.pam.pam_authenticate fauth pamh 0
              (PAM_conv w.alloc ((AuthLoadPAM cfg w.loader s).2.1.publish user pass)) →
            e2 = w.pam.pam_acct_mgmt facct pamh 0
              (PAM_conv w.alloc ((AuthLoadPAM cfg w.loader s).2.1.publish user pass)) →
            e3 = w.pam.pam_setcred fcred pamh PAM_ESTABLISH_CRED
              (PAM_conv w.alloc ((AuthLoadPAM cfg w.loader s).2.1.publish user pass)) →
            (e1 ≠ PAM_SUCCESS →
              rest.filter Call.isSession =
                [.pam_authenticate fauth pamh 0, .pam_end fend pamh e1] ∧
              rest.getLast? = some (.pam_end fend pamh e1) ∧
              (Auth_AuthenticateUser cfg w s user pass).1 = .returned none) ∧
            (e1 = PAM_SUCCESS → e2 ≠ PAM_SUCCESS →
              rest.filter Call.isSession =
                [.pam_authenticate fauth pamh 0, .pam_acct_mgmt facct pamh 0,
                 .pam_end fend pamh e2] ∧
              rest.getLast? = some (.pam_end fend pamh e2) ∧
              (Auth_AuthenticateUser cfg w s user pass).1 = .returned none) ∧
            (e1 = PAM_SUCCESS → e2 = PAM_SUCCESS → e3 ≠ PAM_SUCCESS →
              rest.filter Call.isSession =
                [.pam_authenticate fauth pamh 0, .pam_acct_mgmt facct pamh 0,
                 .pam_setcred fcred pamh PAM_ESTABLISH_CRED, .pam_end fend pamh e3] ∧
              rest.getLast? = some (.pam_end fend pamh e3) ∧
              (Auth_AuthenticateUser cfg w s user pass).1 = .returned none) ∧
            (e1 = PAM_SUCCESS → e2 = PAM_SUCCESS → e3 = PAM_SUCCESS →
              rest.filter Call.isSession =
                [.pam_authenticate fauth pamh 0, .pam_acct_mgmt facct pamh 0,
                 .pam_setcred fcred pamh PAM_ESTABLISH_CRED,
                 .pam_end fend pamh PAM_SUCCESS]) := by
  have hb := AuthLoadPAM_bound cfg w.loader s hwf hload
  obtain ⟨fstart, fend, fauth, fcred, facct, fstrerror, h0, h1, h2, h3, h4, h5⟩ :=
    bound_pointers _ hb
  have hs0 : ((AuthLoadPAM cfg w.loader s).2.1.publish user pass).dlpam_start = some fstart := h0
  refine ⟨fstart, fend, fauth, fcred, facct, fstrerror, hs0, h1, h2, h3, h4, h5, ?_⟩
  intro pamh hstart
  refine ⟨(Auth_checks w ((AuthLoadPAM cfg w.loader s).2.1.publish user pass) pamh user).2, ?_, ?_⟩
  · simp [Auth_AuthenticateUser, hu, hp, hcfg, Auth_pam_eq, hload, hs0, hstart]
  · have hout : (Auth_AuthenticateUser cfg w s user pass).1 =
        (Auth_checks w ((AuthLoadPAM cfg w.loader s).2.1.publish user pass) pamh user).1 := by
      simp [Auth_AuthenticateUser, hu, hp, hcfg, Auth_pam_eq, hload, hs0, hstart]
    rw [hout, Auth_checks_eq w ((AuthLoadPAM cfg w.loader s).2.1.publish user pass) user pamh
      fend fauth fcred facct fstrerror h1 h2 h3 h4 h5]
    intro e1 e2 e3 he1 he2 he3
    subst he1 he2 he3
    refine ⟨?_, ?_, ?_, ?_⟩
    · intro hne
      simp [hne, Call.isSession]
    · intro h1 hne
      simp [h1, hne, Call.isSession]
    · intro h1 h2 hne
      simp [h1, h2, hne, Call.isSession]
    · intro h1 h2 h3
      simp [h1, h2, h3, Call.isSession]

end ModulePath

/-- Witness for C5: the account check of the sample module returns code 7. -/
theorem auth_module_sequence_witness :
    (Auth_AuthenticateUser cfgPam (sampleWorld (sampleLoader fullNames) (samplePam 0 0 7 0))
        AuthState.init (cstr "alice") (cstr "pass")).1 = .returned none ∧
    (Auth_AuthenticateUser cfgPam (sampleWorld (sampleLoader fullNames) (samplePam 0 0 7 0))
        AuthState.init (cstr "alice") (cstr "pass")).2.2.filter Call.isSession =
      [.pam_authenticate 102 55 0, .pam_acct_mgmt 104 55 0, .pam_end 101 55 7] := by
  obtain ⟨fstart, fend, fauth, fcred, facct, fstrerror, _, _, _, _, _, _, h⟩ :=
    auth_module_sequence cfgPam (sampleWorld (sampleLoader fullNames) (samplePam 0 0 7 0))
      AuthState.init (cstr "alice") (cstr "pass") rfl (by decide) (by decide) (by decide)
      (by decide)
  obtain ⟨rest, _, hrest⟩ := h 55 rfl
  exact ⟨(hrest 0 7 0 rfl rfl rfl).2.1 rfl (by decide) |>.2.2, by decide⟩

/-! ### C9: when a token is returned -/

section Token

variable (cfg : Config) (w : World) (s : AuthState) (user pass : CStr)

/-- The checks return a record exactly when none of them crashes or fails and the
lookup by name finds the record. -/
theorem Auth_checks_token_iff (pamh : Nat) (pwd : passwd) :
    (Auth_checks w s pamh user).1 = .returned (some pwd) ↔
      ∃ fend fauth fcred facct : Nat,
        s.dlpam_end = some fend ∧ s.dlpam_authenticate = some fauth ∧
        s.dlpam_setcred = some fcred ∧ s.dlpam_acct_mgmt = some facct ∧
        w.pam.pam_authenticate fauth pamh 0 (PAM_conv w.alloc s) = PAM_SUCCESS ∧
        w.pam.pam_acct_mgmt facct pamh 0 (PAM_conv w.alloc s) = PAM_SUCCESS ∧
        w.pam.pam_setcred fcred pamh PAM_ESTABLISH_CRED (PAM_conv w.alloc s) = PAM_SUCCESS ∧
        w.Posix_Getpwnam user = some pwd := by
  have hbail : ∀ e, (PAM_BAIL s pamh e).1 ≠ .returned (some pwd) := by
    intro e
    unfold PAM_BAIL
    cases s.dlpam_strerror <;> cases s.dlpam_end <;> simp
  unfold Auth_checks
  cases h2 : s.dlpam_authenticate with
  | none => simp
  | some fauth =>
    simp only
    by_cases e1 : w.pam.pam_authenticate fauth pamh 0 (PAM_conv w.alloc s) = PAM_SUCCESS
    · simp only [e1, ne_eq, not_true_eq_false, if_false]
      cases h4 : s.dlpam_acct_mgmt with
      | none => simp
      | some facct =>
        simp only
        by_cases e2 : w.pam.pam_acct_mgmt facct pamh 0 (PAM_conv w.alloc s) = PAM_SUCCESS
        · simp only [e2, ne_eq, not_true_eq_false, if_false]
          cases h3 : s.dlpam_setcred with
          | none => simp
          | some fcred =>
            simp only
            by_cases e3 : w.pam.pam_setcred fcred pamh PAM_ESTABLISH_CRED (PAM_conv w.alloc s)
                = PAM_SUCCESS
            · simp only [e3, ne_eq, not_true_eq_false, if_false]
              cases h1 : s.dlpam_end with
              | none => simp
              | some fend => simp [e1, e2, e3]
            · simp [e3, hbail]
        · simp [e2, hbail]
    · simp [e1, hbail]

/-- C9, as amended: for validly encoded `user` and `pass`, with `USE_PAM` the
record `pwd` is returned exactly when `AuthLoadPAM` returns `TRUE` with the entry
points bound, `pam_start`, `pam_authenticate`, `pam_acct_mgmt` and `pam_setcred`
all return `PAM_SUCCESS`, and the lookup by name made afterwards returns `pwd`;
without `USE_PAM`, exactly when the lookup returns `pwd` and its `pw_passwd` is
empty or equal to what `crypt` returns. -/
theorem auth_token_iff
    (hu : w.CodeSet_Validate user user.length (cstr "UTF-8") = true)
    (hp : w.CodeSet_Validate pass pass.length (cstr "UTF-8") = true) (pwd : passwd) :
    (cfg.USE_PAM = true →
      ((Auth_AuthenticateUser cfg w s user pass).1 = .returned (some pwd) ↔
        ∃ fstart fend fauth fcred facct pamh : Nat,
          (AuthLoadPAM cfg w.loader s).1 = true ∧
          ((AuthLoadPAM cfg w.loader s).2.1.publish user pass).dlpam_start = some fstart ∧
          ((AuthLoadPAM cfg w.loader s).2.1.publish user pass).dlpam_end = some fend ∧
          ((AuthLoadPAM cfg w.loader s).2.1.publish user pass).dlpam_authenticate = some fauth ∧
          ((AuthLoadPAM cfg w.loader s).2.1.publish user pass).dlpam_setcred = some fcred ∧
          ((AuthLoadPAM cfg w.loader s).2.1.publish user pass).dlpam_acct_mgmt = some facct ∧
          w.pam.pam_start fstart (serviceName cfg) (some user)
            (PAM_conv w.alloc ((AuthLoadPAM cfg w.loader s).2.1.publish user pass))
            = (PAM_SUCCESS, pamh) ∧
          w.pam.pam_authenticate fauth pamh 0
            (PAM_conv w.alloc ((AuthLoadPAM cfg w.loader s).2.1.publish user pass))
            = PAM_SUCCESS ∧
          w.pam.pam_acct_mgmt facct pamh 0
            (PAM_conv w.alloc ((AuthLoadPAM cfg w.loader s).2.1.publish user pass))
            = PAM_SUCCESS ∧
          w.pam.pam_setcred fcred pamh PAM_ESTABLISH_CRED
            (PAM_conv w.alloc ((AuthLoadPAM cfg w.loader s).2.1.publish user pass))
            = PAM_SUCCESS ∧
          w.Posix_Getpwnam user = some pwd)) ∧
    (cfg.USE_PAM = false →
      ((Auth_AuthenticateUser cfg w s user pass).1 = .returned (some pwd) ↔
        w.Posix_Getpwnam user = some pwd ∧
        (pwd.pw_passwd = [] ∨ w.crypt pass pwd.pw_passwd = some pwd.pw_passwd))) := by
  constructor
  · intro hcfg
    have hout : (Auth_AuthenticateUser cfg w s user pass).1 =
        (Auth_AuthenticateUser_pam cfg w s user pass).1 := by
      simp [Auth_AuthenticateUser, hu, hp, hcfg]
    rw [hout, Auth_pam_eq]
    by_cases hload : (AuthLoadPAM cfg w.loader s).1 = true
    · simp only [hload, if_true, true_and]
      cases h0 : ((AuthLoadPAM cfg w.loader s).2.1.publish user pass).dlpam_start with
      | none => simp
      | some fstart =>
        simp only
        by_cases hst : (w.pam.pam_start fstart (serviceName cfg) (some user)
            (PAM_conv w.alloc ((AuthLoadPAM cfg w.loader s).2.1.publish user pass))).1
            = PAM_SUCCESS
        · simp only [hst, ne_eq, not_true_eq_false, if_false, Auth_checks_token_iff]
          constructor
          · rintro ⟨fend, fauth, fcred, facct, h1, h2, h3, h4, e1, e2, e3, hg⟩
            exact ⟨fstart, fend, fauth, fcred, facct, _, rfl, h1, h2, h3, h4,
              Prod.ext hst rfl, e1, e2, e3, hg⟩
          · rintro ⟨fstart', fend, fauth, fcred, facct, pamh, hf, h1, h2, h3, h4, hs, e1, e2,
              e3, hg⟩
            cases hf
            rw [hs]
            exact ⟨fend, fauth, fcred, facct, h1, h2, h3, h4, e1, e2, e3, hg⟩
        · simp only [ne_eq, hst, not_false_eq_true, if_true]
          constructor
          · intro h; cases h
          · rintro ⟨fstart', fend, fauth, fcred, facct, pamh, hf, h1, h2, h3, h4, hs, _⟩
            cases hf
            rw [hs] at hst
            exact absurd rfl hst
    · simp [hload]
  · intro hcfg
    have hout : (Auth_AuthenticateUser cfg w s user pass).1 =
        (Auth_AuthenticateUser_nopam w user pass).1 := by
      simp [Auth_AuthenticateUser, hu, hp, hcfg]
    rw [hout]
    unfold Auth_AuthenticateUser_nopam
    cases hrec : w.Posix_Getpwnam user with
    | none => simp
    | some rec =>
      simp only
      by_cases hne : rec.pw_passwd = []
      · simp only [hne, ne_eq, not_true_eq_false, if_false, Outcome.returned.injEq,
          Option.some.injEq]
        constructor
        · intro h; subst h; exact ⟨rfl, Or.inl hne⟩
        · intro h; exact h.1
      · simp only [ne_eq, hne, not_false_eq_true, if_true]
        cases hc : w.crypt pass rec.pw_passwd with
        | none =>
          simp only
          constructor
          · intro h; cases h
          · rintro ⟨h1, h2⟩
            simp only [Option.some.injEq] at h1
            subst h1
            rcases h2 with h2 | h2
            · exact absurd h2 hne
            · rw [hc] at h2; cases h2
        | some namep =>
          simp only
          by_cases heq : namep = rec.pw_passwd
          · simp only [heq, not_true_eq_false, if_false, Outcome.returned.injEq,
              Option.some.injEq]
            constructor
            · intro h; subst h; exact ⟨rfl, Or.inr (by rw [hc, heq])⟩
            · intro h; exact h.1
          · simp only [heq, not_false_eq_true, if_true]
            constructor
            · intro h; cases h
            · rintro ⟨h1, h2⟩
              simp only [Option.some.injEq] at h1
              subst h1
              rcases h2 with h2 | h2
              · exact absurd h2 hne
              · rw [hc] at h2
                simp only [Option.some.injEq] at h2
                exact absurd h2 heq

end Token

/-- Counterexample for C9: module loaded, session opened, all three checks
successful, but `bob` has no record in the identity database: the result is
`NULL`. -/
theorem auth_module_success_without_record :
    (AuthLoadPAM cfgPam (sampleLoader fullNames) AuthState.init).1 = true ∧
    (samplePam 0 0 0 0).pam_start 100 (serviceName cfgPam) (some (cstr "bob"))
        (PAM_conv goodAlloc
          ((AuthLoadPAM cfgPam (sampleLoader fullNames) AuthState.init).2.1.publish
            (cstr "bob") (cstr "pass"))) = (PAM_SUCCESS, 55) ∧
    (Auth_AuthenticateUser cfgPam (sampleWorld (sampleLoader fullNames) (samplePam 0 0 0 0))
        AuthState.init (cstr "bob") (cstr "pass")).2.2.filter Call.isSession =
      [.pam_authenticate 102 55 0, .pam_acct_mgmt 104 55 0, .pam_setcred 103 55 2,
       .pam_end 101 55 PAM_SUCCESS] ∧
    (Auth_AuthenticateUser cfgPam (sampleWorld (sampleLoader fullNames) (samplePam 0 0 0 0))
        AuthState.init (cstr "bob") (cstr "pass")).1 = .returned none := by
  refine ⟨?_, ?_, ?_, ?_⟩ <;> decide

/-- Witness for C9: `alice` through the sample module, and `alice` through the
hash comparison. -/
theorem auth_token_iff_witness :
    (Auth_AuthenticateUser cfgPam (sampleWorld (sampleLoader fullNames) (samplePam 0 0 0 0))
        AuthState.init (cstr "alice") (cstr "pass")).1 = .returned (some alice) ∧
    (Auth_AuthenticateUser cfgNoPam (sampleWorld emptyLoader (samplePam 0 0 0 0))
        AuthState.init (cstr "alice") (cstr "pass")).1 = .returned (some alice) :=
  ⟨((auth_token_iff cfgPam (sampleWorld (sampleLoader fullNames) (samplePam 0 0 0 0))
      AuthState.init (cstr "alice") (cstr "pass") (by decide) (by decide) alice).1 rfl).2
      ⟨100, 101, 102, 103, 104, 55, by decide, by decide, by decide, by decide, by decide,
        by decide, rfl, rfl, rfl, rfl, by decide⟩,
   ((auth_token_iff cfgNoPam (sampleWorld emptyLoader (samplePam 0 0 0 0))
      AuthState.init (cstr "alice") (cstr "pass") (by decide) (by decide) alice).2 rfl).2
      ⟨by decide, Or.inr (by decide)⟩⟩

/-! ### C6: the conversation callback -/

section Conversation

variable (al : Alloc) (s : AuthState)

theorem strdupOrNull_eq (count : Nat) (p : Option CStr) :
    strdupOrNull al count p = if al.strdup count = true then p else none := by
  cases p <;> simp [strdupOrNull]

/-- When every remaining message is answerable the loop runs to the end. -/
theorem PAM_conv_loop_answerable (count : Nat) (msg : List Int)
    (h : ∀ m ∈ msg, m = PAM_PROMPT_ECHO_ON ∨ m = PAM_PROMPT_ECHO_OFF ∨ m = PAM_TEXT_INFO) :
    PAM_conv_loop al s count msg =
      some ((msg.enumFrom count).map (fun p => expectedReply al s p.1 p.2)) := by
  induction msg generalizing count with
  | nil => rfl
  | cons m rest ih =>
    have hrest := ih (count + 1) (fun x hx => h x (by simp [hx]))
    have hm := h m (by simp)
    unfold PAM_conv_loop
    rw [hrest]
    rcases hm with hm | hm | hm <;> subst hm <;>
      simp [expectedReply, PAM_PROMPT_ECHO_ON, PAM_PROMPT_ECHO_OFF, PAM_TEXT_INFO]

/-- One message that is not answerable makes the loop bail out. -/
theorem PAM_conv_loop_bail (count : Nat) (msg : List Int)
    (h : ∃ m ∈ msg, m ≠ PAM_PROMPT_ECHO_ON ∧ m ≠ PAM_PROMPT_ECHO_OFF ∧ m ≠ PAM_TEXT_INFO) :
    PAM_conv_loop al s count msg = none := by
  induction msg generalizing count with
  | nil => simp at h
  | cons m rest ih =>
    unfold PAM_conv_loop
    by_cases hbad : m ≠ PAM_PROMPT_ECHO_ON ∧ m ≠ PAM_PROMPT_ECHO_OFF ∧ m ≠ PAM_TEXT_INFO
    · simp [hbad.1, hbad.2.1, hbad.2.2]
    · have hrest : PAM_conv_loop al s (count + 1) rest = none := by
        apply ih
        obtain ⟨x, hx, hxb⟩ := h
        simp only [List.mem_cons] at hx
        rcases hx with hx | hx
        · subst hx; exact absurd hxb hbad
        · exact ⟨x, hx, hxb⟩
      rw [hrest]
      repeat' split
      all_goals rfl

/-- C6, as amended: when `calloc` of the reply array succeeds and every message is
a visible prompt, a masked prompt or informational text, `PAM_conv` returns
`PAM_SUCCESS` and sets `*resp` to as many replies as there are messages, reply
`i` having return code `PAM_SUCCESS` and, for a visible prompt, the copy of
`PAM_username` (absent when no name is set or its `strdup` fails), for a masked
prompt the copy of `PAM_password` (likewise), for informational text nothing.
When `calloc` fails, or some message is error text or of another style,
`PAM_conv` returns `PAM_CONV_ERR` and leaves `*resp` unset. -/
theorem PAM_conv_spec (msg : List Int) :
    (al.calloc msg.length = true →
      (∀ m ∈ msg, m = PAM_PROMPT_ECHO_ON ∨ m = PAM_PROMPT_ECHO_OFF ∨ m = PAM_TEXT_INFO) →
      ∃ reply : List pam_response,
        PAM_conv al s msg = (PAM_SUCCESS, some reply) ∧
        reply.length = msg.length ∧
        ∀ (i : Nat) (m : Int), msg[i]? = some m →
          ∃ r : pam_response, reply[i]? = some r ∧ r.resp_retcode = PAM_SUCCESS ∧
            (m = PAM_PROMPT_ECHO_ON →
              r.resp = if al.strdup i = true then s.PAM_username else none) ∧
            (m = PAM_PROMPT_ECHO_OFF →
              r.resp = if al.strdup i = true then s.PAM_password else none) ∧
            (m = PAM_TEXT_INFO → r.resp = none)) ∧
    ((al.calloc msg.length = false ∨
        ∃ m ∈ msg, m ≠ PAM_PROMPT_ECHO_ON ∧ m ≠ PAM_PROMPT_ECHO_OFF ∧ m ≠ PAM_TEXT_INFO) →
      PAM_conv al s msg = (PAM_CONV_ERR, none)) := by
  constructor
  · intro hc hall
    refine ⟨(msg.enumFrom 0).map (fun p => expectedReply al s p.1 p.2), ?_, by simp, ?_⟩
    · simp [PAM_conv, hc, PAM_conv_loop_answerable al s 0 msg hall]
    · intro i m him
      refine ⟨expectedReply al s i m, ?_, ?_, ?_, ?_, ?_⟩
      · simp [List.getElem?_enumFrom, him]
      · unfold expectedReply; split
        · rfl
        · split <;> rfl
      · intro h; subst h; simp [expectedReply, strdupOrNull_eq]
      · intro h; subst h
        simp [expectedReply, strdupOrNull_eq, PAM_PROMPT_ECHO_ON, PAM_PROMPT_ECHO_OFF]
      · intro h; subst h
        simp [expectedReply, PAM_PROMPT_ECHO_ON, PAM_PROMPT_ECHO_OFF, PAM_TEXT_INFO]
  · rintro (hc | hbad)
    · simp [PAM_conv, hc]
    · unfold PAM_conv
      rw [PAM_conv_loop_bail al s 0 msg hbad]
      split <;> rfl

end Conversation

/-- Counterexample for C6: a single visible prompt while `calloc` fails gives
`PAM_CONV_ERR` and no reply; and when `calloc` succeeds but `strdup` fails, the
reply to the visible prompt is absent although a user name is set. -/
theorem PAM_conv_allocation_failure :
    PAM_conv noAlloc (AuthState.init.publish (cstr "alice") (cstr "pass")) [PAM_PROMPT_ECHO_ON]
      = (PAM_CONV_ERR, none) ∧
    PAM_conv arrayOnlyAlloc (AuthState.init.publish (cstr "alice") (cstr "pass"))
      [PAM_PROMPT_ECHO_ON] = (PAM_SUCCESS, some [⟨none, PAM_SUCCESS⟩]) := by
  constructor <;> decide

/-- Witness for C6: name prompt, password prompt, information; then the same with
an error text at the end. -/
theorem PAM_conv_spec_witness :
    (∃ reply : List pam_response,
      PAM_conv goodAlloc (AuthState.init.publish (cstr "alice") (cstr "pass"))
        [PAM_PROMPT_ECHO_ON, PAM_PROMPT_ECHO_OFF, PAM_TEXT_INFO] = (PAM_SUCCESS, some reply) ∧
      reply.length = 3) ∧
    PAM_conv goodAlloc (AuthState.init.publish (cstr "alice") (cstr "pass"))
        [PAM_PROMPT_ECHO_ON, PAM_PROMPT_ECHO_OFF, PAM_ERROR_MSG] = (PAM_CONV_ERR, none) := by
  refine ⟨?_, ?_⟩
  · obtain ⟨reply, h1, h2, _⟩ :=
      (PAM_conv_spec goodAlloc (AuthState.init.publish (cstr "alice") (cstr "pass"))
        [PAM_PROMPT_ECHO_ON, PAM_PROMPT_ECHO_OFF, PAM_TEXT_INFO]).1 rfl (by decide)
    exact ⟨reply, h1, h2⟩
  · exact (PAM_conv_spec goodAlloc (AuthState.init.publish (cstr "alice") (cstr "pass"))
        [PAM_PROMPT_ECHO_ON, PAM_PROMPT_ECHO_OFF, PAM_ERROR_MSG]).2
        (Or.inr ⟨PAM_ERROR_MSG, by decide, by decide, by decide, by decide⟩)

/-! ### C10: two attempts and one pair of statics -/

section Sharing

variable (al : Alloc) (creds : Who → CStr × CStr)

/-- The loop of `PAM_conv` reads nothing but `PAM_username` and `PAM_password`. -/
theorem PAM_conv_loop_congr (s t : AuthState) (hu : s.PAM_username = t.PAM_username)
    (hp : s.PAM_password = t.PAM_password) (count : Nat) (msg : List Int) :
    PAM_conv_loop al s count msg = PAM_conv_loop al t count msg := by
  induction msg generalizing count with
  | nil => rfl
  | cons m rest ih =>
    unfold PAM_conv_loop
    rw [ih (count + 1), hu, hp]

theorem PAM_conv_congr (s t : AuthState) (hu : s.PAM_username = t.PAM_username)
    (hp : s.PAM_password = t.PAM_password) (msg : List Int) :
    PAM_conv al s msg = PAM_conv al t msg := by
  unfold PAM_conv
  rw [PAM_conv_loop_congr al s t hu hp]

theorem runSchedule_append (xs ys : List Step) (s : AuthState) :
    runSchedule al creds (xs ++ ys) s =
      runSchedule al creds xs s ++ runSchedule al creds ys (scheduleState creds xs s) := by
  induction xs generalizing s with
  | nil => rfl
  | cons x rest ih =>
    cases x with
    | publish who => exact ih _
    | prompt who msg =>
      show _ :: runSchedule al creds (rest ++ ys) s = _ :: _ ++ _
      rw [ih]
      rfl

theorem scheduleState_append (xs ys : List Step) (s : AuthState) :
    scheduleState creds (xs ++ ys) s = scheduleState creds ys (scheduleState creds xs s) := by
  induction xs generalizing s with
  | nil => rfl
  | cons x rest ih =>
    cases x with
    | publish who => exact ih _
    | prompt who msg => exact ih _

/-- Steps that publish nothing leave the statics alone. -/
theorem scheduleState_of_no_publish (mid : List Step) (s : AuthState)
    (h : ∀ st ∈ mid, ∀ who, st ≠ Step.publish who) : scheduleState creds mid s = s := by
  induction mid generalizing s with
  | nil => rfl
  | cons x rest ih =>
    cases x with
    | publish who => exact absurd rfl (h _ (by simp) who)
    | prompt who msg =>
      simp only [scheduleState]
      exact ih s (fun st hst => h st (by simp [hst]))

/-- The prompts of one attempt, run without interruption. -/
theorem runSchedule_prompts (who : Who) (prompts : List (List Int)) (s : AuthState) :
    runSchedule al creds (prompts.map (.prompt who)) s =
      prompts.map (fun msg => ⟨who, msg, PAM_conv al s msg⟩) := by
  induction prompts with
  | nil => rfl
  | cons m rest ih => simp only [List.map_cons, runSchedule, ih]

/-- C10, as amended: `PAM_username` and `PAM_password` are one pair for the whole
process, so in every sequence of steps a prompt is answered from the credentials
published last before it, whichever attempt published them and whichever attempt
the prompt was issued for; when the two attempts run one after the other, each
prompt is answered with the credentials of its own attempt. -/
theorem conversation_last_published :
    (∀ (pre mid post : List Step) (who' who : Who) (msg : List Int) (s : AuthState),
      (∀ st ∈ mid, ∀ x, st ≠ Step.publish x) →
      runSchedule al creds (pre ++ Step.publish who' :: (mid ++ Step.prompt who msg :: post)) s =
        runSchedule al creds (pre ++ Step.publish who' :: mid) s ++
          ⟨who, msg, PAM_conv al (AuthState.init.publish (creds who').1 (creds who').2) msg⟩ ::
          runSchedule al creds post
            ((scheduleState creds pre s).publish (creds who').1 (creds who').2)) ∧
    (∀ (pa pb : List (List Int)) (s : AuthState),
      ∀ a ∈ runSchedule al creds (attemptSteps .A pa ++ attemptSteps .B pb) s,
        a.own al creds) := by
  constructor
  · intro pre mid post who' who msg s hmid
    have hsplit : pre ++ Step.publish who' :: (mid ++ Step.prompt who msg :: post) =
        (pre ++ Step.publish who' :: mid) ++ (Step.prompt who msg :: post) := by simp
    rw [hsplit, runSchedule_append]
    have hstate : scheduleState creds (pre ++ Step.publish who' :: mid) s =
        (scheduleState creds pre s).publish (creds who').1 (creds who').2 := by
      rw [scheduleState_append]
      simp only [scheduleState]
      exact scheduleState_of_no_publish creds mid _ hmid
    rw [hstate]
    simp only [runSchedule]
    rw [PAM_conv_congr al ((scheduleState creds pre s).publish (creds who').1 (creds who').2)
      (AuthState.init.publish (creds who').1 (creds who').2) rfl rfl]
  · intro pa pb s a ha
    rw [runSchedule_append] at ha
    simp only [attemptSteps, runSchedule, runSchedule_prompts, List.mem_append,
      List.mem_map] at ha
    rcases ha with ⟨msg, _, rfl⟩ | ⟨msg, _, rfl⟩
    · exact PAM_conv_congr al (s.publish (creds .A).1 (creds .A).2)
        (AuthState.init.publish (creds .A).1 (creds .A).2) rfl rfl msg
    · exact PAM_conv_congr al
        ((scheduleState creds (attemptSteps .A pa) s).publish (creds .B).1 (creds .B).2)
        (AuthState.init.publish (creds .B).1 (creds .B).2) rfl rfl msg

end Sharing

/-- Counterexample for C10: `crossSchedule` is an interleaving of the steps of two
attempts with different credentials, and in it the prompt issued for attempt `A`
is answered with the user name and password of attempt `B`. -/
theorem conversation_cross_delivery :
    Interleave (attemptSteps .A [[PAM_PROMPT_ECHO_ON, PAM_PROMPT_ECHO_OFF]])
      (attemptSteps .B [[PAM_PROMPT_ECHO_ON, PAM_PROMPT_ECHO_OFF]]) crossSchedule ∧
    runSchedule goodAlloc sampleCreds crossSchedule AuthState.init =
      [⟨.A, [PAM_PROMPT_ECHO_ON, PAM_PROMPT_ECHO_OFF],
          (PAM_SUCCESS, some [⟨some (cstr "bob"), PAM_SUCCESS⟩, ⟨some (cstr "pb"), PAM_SUCCESS⟩])⟩,
       ⟨.B, [PAM_PROMPT_ECHO_ON, PAM_PROMPT_ECHO_OFF],
          (PAM_SUCCESS, some [⟨some (cstr "bob"), PAM_SUCCESS⟩, ⟨some (cstr "pb"), PAM_SUCCESS⟩])⟩] ∧
    ¬ (∀ a ∈ runSchedule goodAlloc sampleCreds crossSchedule AuthState.init,
        a.own goodAlloc sampleCreds) := by
  refine ⟨.left _ (.right _ (.left _ (.right _ .nil))), by decide, ?_⟩
  intro h
  have := h ⟨.A, [PAM_PROMPT_ECHO_ON, PAM_PROMPT_ECHO_OFF],
    (PAM_SUCCESS, some [⟨some (cstr "bob"), PAM_SUCCESS⟩, ⟨some (cstr "pb"), PAM_SUCCESS⟩])⟩
    (by decide)
  revert this
  unfold Answer.own
  decide

/-- Witness for C10: in `crossSchedule` the prompt for `A` comes after the
publication by `B`, with no publication in between. -/
theorem conversation_last_published_witness :
    runSchedule goodAlloc sampleCreds crossSchedule AuthState.init =
      runSchedule goodAlloc sampleCreds [.publish .A, .publish .B] AuthState.init ++
        ⟨.A, [PAM_PROMPT_ECHO_ON, PAM_PROMPT_ECHO_OFF],
          PAM_conv goodAlloc (AuthState.init.publish (cstr "bob") (cstr "pb"))
            [PAM_PROMPT_ECHO_ON, PAM_PROMPT_ECHO_OFF]⟩ ::
        runSchedule goodAlloc sampleCreds
          [.prompt .B [PAM_PROMPT_ECHO_ON, PAM_PROMPT_ECHO_OFF]]
          ((scheduleState sampleCreds [.publish .A] AuthState.init).publish
            (cstr "bob") (cstr "pb")) :=
  (conversation_last_published goodAlloc sampleCreds).1 [.publish .A] []
    [.prompt .B [PAM_PROMPT_ECHO_ON, PAM_PROMPT_ECHO_OFF]] .B .A
    [PAM_PROMPT_ECHO_ON, PAM_PROMPT_ECHO_OFF] AuthState.init (by simp)

/-! ### C11: the reset of `crypt` -/

section Reset

variable (cfg : Config) (w : World) (s : AuthState) (user pass : CStr)

/-- The `crypt` calls of the hash comparison: when the strings are equal, the
supplied password and then `"glurp"`; when they differ, the supplied password
alone, since `return NULL` (line 348) comes before the second call (line 352). -/
theorem auth_fallback_crypt_keys (hcfg : cfg.USE_PAM = false)
    (hu : w.CodeSet_Validate user user.length (cstr "UTF-8") = true)
    (hp : w.CodeSet_Validate pass pass.length (cstr "UTF-8") = true)
    (pwd : passwd) (hrec : w.Posix_Getpwnam user = some pwd) (hne : pwd.pw_passwd ≠ [])
    (namep : CStr) (hc : w.crypt pass pwd.pw_passwd = some namep) :
    (namep = pwd.pw_passwd →
      cryptKeys (Auth_AuthenticateUser cfg w s user pass).2.2 = [pass, cstr "glurp"]) ∧
    (namep ≠ pwd.pw_passwd →
      cryptKeys (Auth_AuthenticateUser cfg w s user pass).2.2 = [pass]) := by
  constructor
  · intro he
    simp [Auth_AuthenticateUser, Auth_AuthenticateUser_nopam, hcfg, hu, hp, hrec, hne, hc, he,
      cryptKeys]
  · intro he
    simp [Auth_AuthenticateUser, Auth_AuthenticateUser_nopam, hcfg, hu, hp, hrec, hne, hc, he,
      cryptKeys]

end Reset

/-- C11, at the failing input: `alice` has the stored secret `"abqbtt"`; with the
wrong password `"word"` the function applies `crypt` to the password, returns
`NULL`, and makes no further `crypt` call, so the last key given to `crypt` is the
supplied password. With the right password `"pass"` the call on `"glurp"` follows. -/
theorem auth_fallback_mismatch_skips_reset :
    (Auth_AuthenticateUser cfgNoPam (sampleWorld emptyLoader (samplePam 0 0 0 0)) AuthState.init
        (cstr "alice") (cstr "word")).1 = .returned none ∧
    cryptKeys (Auth_AuthenticateUser cfgNoPam (sampleWorld emptyLoader (samplePam 0 0 0 0))
        AuthState.init (cstr "alice") (cstr "word")).2.2 = [cstr "word"] ∧
    (cryptKeys (Auth_AuthenticateUser cfgNoPam (sampleWorld emptyLoader (samplePam 0 0 0 0))
        AuthState.init (cstr "alice") (cstr "word")).2.2).getLast? ≠ some (cstr "glurp") ∧
    cryptKeys (Auth_AuthenticateUser cfgNoPam (sampleWorld emptyLoader (samplePam 0 0 0 0))
        AuthState.init (cstr "alice") (cstr "pass")).2.2 = [cstr "pass", cstr "glurp"] := by
  refine ⟨?_, ?_, ?_, ?_⟩ <;> decide

end AuthPosix
